import Mathlib

/-!
# Order routes, loyalty trigger and chat relay of the shop backend

A shallow embedding of the order handlers (`src/routes/orders.js`), of the tables and
the trigger they rely on (`src/db/index.js`), of coupon validation
(`src/routes/coupons.js`), of the connection registry of `src/websocket/index.js`, of
the chat handlers (`src/routes/chat.js`) and of signup (`src/routes/auth.js`),
followed by the properties proved about them.

Modelling conventions.

* Row identifiers (`UUID`) are natural numbers; `gen_random_uuid()` is the counter
  `Store.nextId`. An identifier that a client supplies, in a body or in a path, is an
  `IdText`: text in UUID syntax, or anything else, for which the `UUID` column rejects
  the query and the `catch` block of the handler answers `500`.
* JavaScript numbers are exact rationals: binary floating point is not modelled. The
  `DECIMAL(10,2)` columns of `orders` round what is inserted to two decimals, half
  away from zero (`roundCents`); the range of the type is not modelled.
* The driver hands over `DECIMAL` and `NUMERIC` columns as decimal text (which is why
  `routes/admin.js` calls `parseFloat` on a sum of amounts). Such a text is never
  empty, so it is truthy whatever number it denotes. A price, of type `DECIMAL(10,2)`,
  is a whole number of cents (`Decimal2`); a `NUMERIC` column of `coupons` is any
  rational (`JsNum`).
* The quantity of a cart line is an integer of any sign, as the handler does not
  restrict it.
* The `updated_at` columns, the triggers that maintain them and the range of the SQL
  `INTEGER` type are not modelled.
* A query that names a column its table does not have throws; the columns of
  `chat_messages` are those of the migration in `src/db/index.js`.
* A handle of the relay (a `ws` object) is a natural number; the hub records for each
  handle what the handlers of the source read or write, and the map `clients` is a
  function from user id to handle, as a JavaScript `Map` holds one value for a key.
* `ORDER BY created_at ASC` is a stable sort; rows of equal `created_at` keep their
  table order.
* Two requests in flight are interleaved at the `await` points of the handler: one
  step of `stepProc` is one `db.query` with the code that follows it up to the next
  one; `converges_place` shows that a handler left alone does what `place` does.
* The fields of a request body are strings when present; `bcrypt` and `jsonwebtoken`
  are parameters.
* Every `db.query` of order placement that writes may reject; `fault` names the
  write that does (writes are counted from 0, the order insert first). Any other
  statement fails only for the reasons above (an identifier that is no UUID text, a
  column the table lacks) or for a `NOT NULL` column left without a value.
-/

namespace Shop

/-- A non-null `NUMERIC` value as the handler finds it in a result row: decimal text
denoting `q`. -/
inductive JsNum where
  | text (q : ℚ)
  deriving DecidableEq

/-- JavaScript `ToNumber` on a numeric value. -/
def JsNum.toNumber : JsNum → ℚ
  | .text q => q

/-- JavaScript truthiness: decimal text is never empty. -/
def JsNum.truthy : JsNum → Bool
  | .text _ => true

/-- A non-null `DECIMAL(10,2)` value as the handler finds it in a result row: decimal
text with two decimals, such as `10.05` for 1005 cents. -/
structure Decimal2 where
  cents : Int
  deriving DecidableEq

/-- JavaScript `ToNumber` on a price. -/
def Decimal2.toNumber (d : Decimal2) : ℚ :=
  d.cents / 100

/-- JavaScript truthiness of a price: its text, `0.00` included, is never empty. -/
def Decimal2.truthy (_ : Decimal2) : Bool :=
  true

/-- An identifier as a client supplies it: text in UUID syntax, which denotes the row
identifier `id`, or any other value, which a `UUID` column rejects. -/
inductive IdText where
  | uuid (id : Nat)
  | malformed
  deriving DecidableEq

instance (n : Nat) : OfNat IdText n :=
  ⟨.uuid n⟩

/-- The row identifier an `IdText` denotes (0 for text that denotes none). -/
def IdText.rowId : IdText → Nat
  | .uuid id => id
  | .malformed => 0

/-- What a `DECIMAL(10,2)` column stores for an inserted number: the nearest number
of two decimals, a tie going away from zero. -/
def roundCents (q : ℚ) : ℚ :=
  if 0 ≤ q then (⌊q * 100 + 1 / 2⌋ : ℚ) / 100 else -((⌊-q * 100 + 1 / 2⌋ : ℚ) / 100)

/-- `ToNumber` on a nullable numeric value (`null` converts to `0`). -/
def toNumber? : Option JsNum → ℚ
  | none => 0
  | some v => v.toNumber

/-- Truthiness of a nullable numeric value. -/
def truthy? : Option JsNum → Bool
  | none => false
  | some v => v.truthy

/-- The expression `a || b` for a nullable price `a` and a non-null price `b`. -/
def jsOr (a : Option Decimal2) (b : Decimal2) : Decimal2 :=
  match a with
  | some v => if v.truthy then v else b
  | none => b

/-- Row of `products` (the columns the order routes use). -/
structure Product where
  id : Nat
  price : Decimal2
  discount_price : Option Decimal2
  stock : Int
  deriving DecidableEq

/-- Row of `coupons`. -/
structure Coupon where
  id : Nat
  code : String
  discount_percentage : Option Int
  discount_amount : Option JsNum
  min_purchase_amount : Option JsNum
  max_uses : Option Int
  used_count : Option Int
  valid_from : Nat
  valid_until : Nat
  is_active : Option Bool
  deriving DecidableEq

/-- Row of `orders`. -/
structure Order where
  id : Nat
  user_id : Nat
  total_amount : ℚ
  status : String
  shipping_address : String
  phone : String
  payment_method : String
  tracking_number : Option String
  tracking_url : Option String
  estimated_delivery : Option Nat
  coupon_code : Option String
  discount_amount : ℚ
  created_at : Nat
  deriving DecidableEq

/-- Row of `order_items`. -/
structure OrderItem where
  id : Nat
  order_id : Nat
  product_id : Nat
  quantity : Int
  price : ℚ
  deriving DecidableEq

/-- The tables the order routes touch. -/
structure Store where
  products : List Product
  coupons : List Coupon
  orders : List Order
  order_items : List OrderItem
  nextId : Nat
  deriving DecidableEq

/-- One cart line of the request body. -/
structure Item where
  product_id : IdText
  quantity : Int
  deriving DecidableEq

/-- Body of `POST /orders` together with the authenticated user. -/
structure PlaceRequest where
  userId : Nat
  items : Option (List Item)
  shipping_address : Option String
  phone : Option String
  coupon_code : Option String
  payment_method : Option String
  deriving DecidableEq

/-- The three `400` answers of the handler. -/
inductive PlaceError where
  | itemsRequired
  | productNotFound (product_id : Nat)
  | insufficientStock (product_id : Nat)
  deriving DecidableEq

/-- Answer of the handler. -/
inductive Response where
  | created (order : Order)
  | badRequest (e : PlaceError)
  | serverError
  deriving DecidableEq

/-- Whether the answer is the `201` with the order. -/
def Response.isCreated : Response → Bool
  | .created _ => true
  | _ => false

/-- The rows of `SELECT ... FROM products WHERE id = $1`. -/
def selectProduct (s : Store) (product_id : Nat) : List Product :=
  s.products.filter (fun p => p.id == product_id)

/-- The unit price of a product: `product.discount_price || product.price`. -/
def unitPrice (product : Product) : Decimal2 :=
  jsOr product.discount_price product.price

/-- The first loop of the handler (lines 108-120): look every line up, check its
stock, add `price * item.quantity` to `total`. The loop ends with the answer to send
when a line is refused (`400`) or when its `product_id` is no UUID text, so that the
query throws (`500`). -/
def priceItems (s : Store) : List Item → ℚ → Except Response ℚ
  | [], total => .ok total
  | item :: rest, total =>
    match item.product_id with
    | .malformed => .error .serverError
    | .uuid id =>
      match selectProduct s id with
      | [] => .error (.badRequest (.productNotFound id))
      | product :: _ =>
        if product.stock < item.quantity then
          .error (.badRequest (.insufficientStock id))
        else
          priceItems s rest (total + (unitPrice product).toNumber * item.quantity)

/-- The rows of `SELECT * FROM coupons WHERE code = $1 AND is_active = true AND
valid_until > NOW()`. -/
def selectCoupon (s : Store) (now : Nat) (code : String) : List Coupon :=
  s.coupons.filter (fun c => c.code == code && c.is_active == some true && decide (now < c.valid_until))

/-- Truthiness of a nullable integer column (`null` and `0` are falsy). -/
def intTruthy : Option Int → Bool
  | none => false
  | some n => n != 0

/-- Lines 132-136: the discount a coupon that passed the minimum-purchase test gives
on `total`. -/
def discountOf (coupon : Coupon) (total : ℚ) : ℚ :=
  if intTruthy coupon.discount_percentage then
    total * ((coupon.discount_percentage.getD 0 : Int) / 100)
  else if truthy? coupon.discount_amount then
    toNumber? coupon.discount_amount
  else 0

/-- Truthiness of an optional string of the body (absent and empty are falsy). -/
def strTruthy : Option String → Bool
  | none => false
  | some c => c != ""

/-- Lines 122-140: the pair `(total, discount_amount)` after the coupon block. -/
def applyCoupon (s : Store) (now : Nat) (coupon_code : Option String) (total : ℚ) : ℚ × ℚ :=
  if strTruthy coupon_code then
    match selectCoupon s now (coupon_code.getD "") with
    | [] => (total, 0)
    | coupon :: _ =>
      if toNumber? coupon.min_purchase_amount ≤ total then
        (total - discountOf coupon total, discountOf coupon total)
      else (total, 0)
  else (total, 0)

/-- The statement `INSERT INTO order_items (order_id, product_id, quantity, price)`. -/
def insertOrderItem (s : Store) (order_id : Nat) (item : Item) (price : ℚ) : Store :=
  { s with
    order_items := s.order_items ++
      [{ id := s.nextId, order_id := order_id, product_id := item.product_id.rowId,
         quantity := item.quantity, price := price }]
    nextId := s.nextId + 1 }

/-- The statement `UPDATE products SET stock = stock - $1 WHERE id = $2`. -/
def updateStock (s : Store) (quantity : Int) (product_id : Nat) : Store :=
  { s with
    products := s.products.map
      (fun p => if p.id == product_id then { p with stock := p.stock - quantity } else p) }

/-- The second loop of the handler (lines 151-166). `w` is the number of the next
write; the result says whether the loop ran to its end. A `product_id` that is no UUID
text makes the query throw, a missing row makes `product.discount_price` throw, and
the `catch` turns either into a `500`. -/
def writeItems (fault : Option Nat) (order_id : Nat) : List Item → Nat → Store → Store × Bool
  | [], _, s => (s, true)
  | item :: rest, w, s =>
    match item.product_id with
    | .malformed => (s, false)
    | .uuid id =>
      match selectProduct s id with
      | [] => (s, false)
      | product :: _ =>
        if fault = some w then (s, false)
        else
          let s1 := insertOrderItem s order_id item (unitPrice product).toNumber
          if fault = some (w + 1) then (s1, false)
          else writeItems fault order_id rest (w + 2) (updateStock s1 item.quantity id)

/-- The row that `INSERT INTO orders ... RETURNING *` creates for the `total` and the
`discount_amount` the handler computed; the two `DECIMAL(10,2)` columns round them. -/
def newOrder (s : Store) (now : Nat) (req : PlaceRequest) (shipping_address phone : String)
    (total discount_amount : ℚ) : Order :=
  { id := s.nextId
    user_id := req.userId
    total_amount := roundCents total
    status := "pending"
    shipping_address := shipping_address
    phone := phone
    payment_method := if strTruthy req.payment_method then req.payment_method.getD "" else "cash_on_delivery"
    tracking_number := none
    tracking_url := none
    estimated_delivery := none
    coupon_code := if strTruthy req.coupon_code then req.coupon_code else none
    discount_amount := roundCents discount_amount
    created_at := now }

/-- The statement `INSERT INTO orders`. -/
def insertOrder (s : Store) (order : Order) : Store :=
  { s with orders := s.orders ++ [order], nextId := s.nextId + 1 }

/-- The handler of `POST /orders` (lines 99-173) after validation of the cart:
coupon, order insert, item loop. The order insert is refused by the `NOT NULL`
columns `shipping_address` and `phone` when the body lacks them. -/
def commitOrder (now : Nat) (fault : Option Nat) (s : Store) (req : PlaceRequest)
    (items : List Item) (subtotal : ℚ) : Store × Response :=
  let td := applyCoupon s now req.coupon_code subtotal
  match req.shipping_address, req.phone with
  | some shipping_address, some phone =>
    if fault = some 0 then (s, .serverError)
    else
      let order := newOrder s now req shipping_address phone td.1 td.2
      match writeItems fault order.id items 1 (insertOrder s order) with
      | (s2, true) => (s2, .created order)
      | (s2, false) => (s2, .serverError)
  | _, _ => (s, .serverError)

/-- The handler of `POST /orders` (lines 99-173). -/
def place (now : Nat) (fault : Option Nat) (s : Store) (req : PlaceRequest) : Store × Response :=
  match req.items with
  | none => (s, .badRequest .itemsRequired)
  | some [] => (s, .badRequest .itemsRequired)
  | some (item :: rest) =>
    match priceItems s (item :: rest) 0 with
    | .error response => (s, response)
    | .ok subtotal => commitOrder now fault s req (item :: rest) subtotal

/-- Spec side: the product a cart line resolves to, the first row its `product_id`
selects; none when the id is no UUID text or selects no row. -/
def productOf (s : Store) (item : Item) : Option Product :=
  match item.product_id with
  | .uuid id => (selectProduct s id).head?
  | .malformed => none

/-- Spec side: the `product_id` of the cart line is no UUID text. -/
def malformedId (item : Item) : Bool :=
  item.product_id == IdText.malformed

/-- Spec side: the cart line resolves to no product. -/
def unresolved (s : Store) (item : Item) : Bool :=
  (productOf s item).isNone

/-- Spec side: the cart line asks for more than the stock of its product. -/
def exceedsStock (s : Store) (item : Item) : Bool :=
  match productOf s item with
  | some product => decide (product.stock < item.quantity)
  | none => false

/-- Spec side: the answer a single cart line calls for, if it offends: `500` for a
`product_id` that is no UUID text, the `400` of an unknown product, the `400` of
insufficient stock. -/
def itemError (s : Store) (item : Item) : Option Response :=
  match item.product_id with
  | .malformed => some .serverError
  | .uuid id =>
    if unresolved s item then some (.badRequest (.productNotFound id))
    else if exceedsStock s item then some (.badRequest (.insufficientStock id))
    else none

/-- Spec side: the answer for the first offending line in input order; an absent or
empty cart is an offence of its own. -/
def firstOffence (s : Store) : Option (List Item) → Option Response
  | none => some (.badRequest .itemsRequired)
  | some [] => some (.badRequest .itemsRequired)
  | some (item :: rest) => (item :: rest).findSome? (itemError s)

/-- Spec side: the amount of one cart line, unit price times quantity. -/
def lineAmount (s : Store) (item : Item) : ℚ :=
  match productOf s item with
  | some product => (unitPrice product).toNumber * item.quantity
  | none => 0

/-- Spec side: the subtotal of a cart, the sum of its line amounts in input order. -/
def subtotal (s : Store) (items : List Item) : ℚ :=
  (items.map (lineAmount s)).sum

/-- Spec side: the unit price of the product a cart line refers to. -/
def linePrice (s : Store) (item : Item) : ℚ :=
  match productOf s item with
  | some product => (unitPrice product).toNumber
  | none => 0

/-- Spec side: the quantity a cart asks of one product, over all its lines. -/
def qtySum (items : List Item) (product_id : Nat) : Int :=
  ((items.filter (fun i => i.product_id == IdText.uuid product_id)).map
    (fun i => i.quantity)).sum

/-- Spec side: one `order_items` row per cart line, in input order, with
consecutive fresh identifiers. -/
def itemRows (s : Store) (order_id : Nat) : List Item → Nat → List OrderItem
  | [], _ => []
  | item :: rest, n =>
    { id := n, order_id := order_id, product_id := item.product_id.rowId,
      quantity := item.quantity, price := linePrice s item } :: itemRows s order_id rest (n + 1)

/-- Spec side: the store once every line of `items` has been written for order
`order_id`. -/
def finalStore (s : Store) (order_id : Nat) (items : List Item) : Store :=
  { s with
    products := s.products.map (fun p => { p with stock := p.stock - qtySum items p.id })
    order_items := s.order_items ++ itemRows s order_id items s.nextId
    nextId := s.nextId + items.length }

/-- The effect of one round of the second loop. -/
def writeLine (s : Store) (order_id : Nat) (item : Item) : Store :=
  updateStock (insertOrderItem s order_id item (linePrice s item)) item.quantity
    item.product_id.rowId

/-- Spec side: the store after the first `d` writes of the item loop, which
alternate between the insert of a line and the stock update of that line. -/
def storeAfterWrites (s : Store) (order_id : Nat) (items : List Item) (d : Nat) : Store :=
  let base := finalStore s order_id (items.take (d / 2))
  if d % 2 = 0 then base
  else
    match items.drop (d / 2) with
    | item :: _ => insertOrderItem base order_id item (linePrice s item)
    | [] => base

/-- Spec side: the outcome of the handler for a cart that passed validation and a
body that has both shipping fields, by the write that fails. -/
def commitOutcome (fault : Option Nat) (s : Store) (order : Order) (items : List Item) :
    Store × Response :=
  match fault with
  | none => (finalStore (insertOrder s order) order.id items, .created order)
  | some 0 => (s, .serverError)
  | some (d + 1) =>
    if d < 2 * items.length then
      (storeAfterWrites (insertOrder s order) order.id items d, .serverError)
    else (finalStore (insertOrder s order) order.id items, .created order)

/-- Answer of `POST /coupons/validate`. -/
inductive ValidateResponse where
  | ok (coupon : Coupon)
  | invalidOrExpired
  | belowMinimum
  | maxUsesReached
  deriving DecidableEq

/-- The handler of `POST /coupons/validate` (`src/routes/coupons.js`, lines 33-63). -/
def validate (s : Store) (now : Nat) (code : String) (amount : ℚ) : ValidateResponse :=
  match selectCoupon s now code with
  | [] => .invalidOrExpired
  | coupon :: _ =>
    if amount < toNumber? coupon.min_purchase_amount then .belowMinimum
    else if intTruthy coupon.max_uses &&
        decide (coupon.max_uses.getD 0 ≤ coupon.used_count.getD 0) then .maxUsesReached
    else .ok coupon

/-- Spec side: the effective price of a product, `coalesce(discount_price, price)`:
the discount price when it is not null, the list price otherwise. -/
def effectivePrice (product : Product) : ℚ :=
  match product.discount_price with
  | none => product.price.toNumber
  | some d => d.toNumber

/-- Spec side: the effective price of the product a cart line refers to. -/
def effectiveLinePrice (s : Store) (item : Item) : ℚ :=
  match productOf s item with
  | some product => effectivePrice product
  | none => 0

/-- Spec side: the number has at most two decimals. -/
def TwoDecimals (q : ℚ) : Prop :=
  ∃ n : Int, q = n / 100

/-- A coupon of 10 percent whose single use is spent. -/
def demoCouponSave : Coupon :=
  { id := 1, code := "SAVE10", discount_percentage := some 10, discount_amount := none,
    min_purchase_amount := some (.text 0), max_uses := some 1, used_count := some 1,
    valid_from := 0, valid_until := 100, is_active := some true }

/-- A coupon of 20 percent for purchases of 10000 and more. -/
def demoCouponBig : Coupon :=
  { id := 2, code := "BIG", discount_percentage := some 20, discount_amount := some (.text 5),
    min_purchase_amount := some (.text 10000), max_uses := none, used_count := some 0,
    valid_from := 0, valid_until := 100, is_active := some true }

/-- A catalogue of two products and two coupons, with no order yet. -/
def demoStore : Store :=
  { products :=
      [{ id := 1, price := ⟨10000⟩, discount_price := none, stock := 1 },
       { id := 2, price := ⟨5000⟩, discount_price := none, stock := 4 }]
    coupons := [demoCouponSave, demoCouponBig]
    orders := []
    order_items := []
    nextId := 10 }

/-- A request of user 7 for the given cart and coupon code. -/
def demoRequest (items : List Item) (coupon_code : Option String) : PlaceRequest :=
  { userId := 7, items := some items, shipping_address := some "Main St", phone := some "255",
    coupon_code := coupon_code, payment_method := none }

/-- A coupon of 50 percent without a minimum purchase. -/
def demoCouponHalf : Coupon :=
  { id := 4, code := "HALF", discount_percentage := some 50, discount_amount := none,
    min_purchase_amount := none, max_uses := none, used_count := some 0,
    valid_from := 0, valid_until := 100, is_active := some true }

/-- A catalogue with a product priced 10.05, a product priced 50.00 whose discount
price is 0.00, and the coupon `HALF`. -/
def demoStoreCents : Store :=
  { products :=
      [{ id := 1, price := ⟨1005⟩, discount_price := none, stock := 5 },
       { id := 2, price := ⟨5000⟩, discount_price := some ⟨0⟩, stock := 5 }]
    coupons := [demoCouponHalf]
    orders := []
    order_items := []
    nextId := 10 }

/-- Row of `loyalty_points`. -/
structure LoyaltyPoints where
  id : Nat
  user_id : Nat
  points : Int
  lifetime_points : Int
  deriving DecidableEq

/-- The order tables together with `loyalty_points`, the table the trigger
`on_order_completed` writes. -/
structure Ledger where
  store : Store
  loyalty_points : List LoyaltyPoints
  deriving DecidableEq

/-- Answer of `PATCH /orders/:id/status`. -/
inductive StatusResponse where
  | ok (order : Order)
  | notFound
  | serverError
  deriving DecidableEq

/-- The trigger function `update_loyalty_points` (`src/db/index.js`, lines 362-378),
run after the update of one `orders` row from `old` to `new`: on the change into
`completed` it adds `FLOOR(NEW.total_amount / 100)` to both counters of the user,
inserting the row on first use (`ON CONFLICT (user_id) DO UPDATE`). -/
def update_loyalty_points (old new : Order) (db : Ledger) : Ledger :=
  if new.status = "completed" ∧ old.status ≠ "completed" then
    if db.loyalty_points.any (fun r => r.user_id == new.user_id) then
      { db with
        loyalty_points := db.loyalty_points.map (fun r =>
          if r.user_id == new.user_id then
            { r with
              points := r.points + ⌊new.total_amount / 100⌋
              lifetime_points := r.lifetime_points + ⌊new.total_amount / 100⌋ }
          else r) }
    else
      { store := { db.store with nextId := db.store.nextId + 1 }
        loyalty_points := db.loyalty_points ++
          [{ id := db.store.nextId, user_id := new.user_id,
             points := ⌊new.total_amount / 100⌋,
             lifetime_points := ⌊new.total_amount / 100⌋ }] }
  else db

/-- The statement `UPDATE orders SET status = $1 WHERE id = $2` on the rows alone. -/
def setStatus (orders : List Order) (id : Nat) (status : String) : List Order :=
  orders.map (fun o => if o.id == id then { o with status := status } else o)

/-- The handler of `PATCH /orders/:id/status` (`src/routes/orders.js`, lines
176-193), behind the middleware that admits administrators only, for the `id` of the
path. An `id` that is no UUID text makes the query throw and the `catch` answers `500`;
with matching rows a body without `status` violates `NOT NULL`, with the same answer;
otherwise the rows are updated, the trigger runs once for each of them, and the first
row of `RETURNING *` is the answer. -/
def updateStatus (db : Ledger) (id : IdText) (status : Option String) :
    Ledger × StatusResponse :=
  match id with
  | .malformed => (db, .serverError)
  | .uuid orderId =>
    match db.store.orders.filter (fun o => o.id == orderId) with
    | [] => (db, .notFound)
    | old :: olds =>
      match status with
      | none => (db, .serverError)
      | some s =>
        ((old :: olds).foldl (fun d o => update_loyalty_points o { o with status := s } d)
            { db with store := { db.store with orders := setStatus db.store.orders orderId s } },
          .ok { old with status := s })

/-- Spec side: the loyalty row of a user, if there is one. -/
def loyaltyOf (rows : List LoyaltyPoints) (user_id : Nat) : Option LoyaltyPoints :=
  rows.find? (fun r => r.user_id == user_id)

/-- An order of user 7 over 250, pending. -/
def demoOrder : Order :=
  { id := 3, user_id := 7, total_amount := 250, status := "pending",
    shipping_address := "Main St", phone := "255", payment_method := "cash_on_delivery",
    tracking_number := none, tracking_url := none, estimated_delivery := none,
    coupon_code := none, discount_amount := 0, created_at := 1 }

/-- The demo store with `demoOrder` in it and no loyalty row. -/
def demoLedger : Ledger :=
  { store := { demoStore with orders := [demoOrder] }, loyalty_points := [] }

/-- The payload `{type: 'typing', senderId, isTyping}` that the relay hands to
`ws.send`; `isTyping` is absent when the inbound frame had none. -/
structure TypingNotice where
  senderId : Nat
  isTyping : Option Bool
  deriving DecidableEq

/-- State of one `ws` object: its `readyState`, the property `ws.userId`, the user id
captured by the `message`, `close` and `error` handlers once they are installed, the
payloads given to `ws.send` (oldest first) and the arguments of `ws.close`. -/
structure Socket where
  readyState : Nat
  userId : Option Nat
  handlers : Option Nat
  sent : List TypingNotice
  closed : Option (Nat × String)
  deriving DecidableEq

/-- The module state of `src/websocket/index.js`: the map `clients` from user id to
handle, and the state of every handle. -/
structure Hub where
  clients : Nat → Option Nat
  sockets : Nat → Socket

/-- What `JSON.parse(message)` makes of an inbound frame: a syntax error, `null`, a
value without own fields of interest (number, string, boolean, array), or an object
with its `type` (when it is a string), `receiverId` (when it is truthy), `isTyping`
and the `senderId` it may claim, a field the handler never reads. -/
inductive Inbound where
  | malformed
  | nullValue
  | other
  | object (type : Option String) (receiverId : Option Nat) (isTyping : Option Bool)
      (senderId : Option Nat)
  deriving DecidableEq

/-- The call `ws.close(code, reason)`. -/
def closeSocket (hub : Hub) (ws : Nat) (code : Nat) (reason : String) : Hub :=
  { hub with
    sockets := Function.update hub.sockets ws
      { hub.sockets ws with readyState := 2, closed := some (code, reason) } }

/-- The call `receiverWs.send(JSON.stringify(notice))`. -/
def sendNotice (hub : Hub) (ws : Nat) (notice : TypingNotice) : Hub :=
  { hub with
    sockets := Function.update hub.sockets ws
      { hub.sockets ws with sent := (hub.sockets ws).sent ++ [notice] } }

/-- The `connection` handler (`src/websocket/index.js`, lines 9-61) for the handle
`ws` and the `token` of its URL. `verify` stands for `jwt.verify` followed by
`.userId`: the user id of a valid token, `none` when `jwt.verify` throws. -/
def onConnection (verify : String → Option Nat) (hub : Hub) (ws : Nat)
    (token : Option String) : Hub :=
  if strTruthy token then
    match verify (token.getD "") with
    | some userId =>
      { clients := Function.update hub.clients userId (some ws)
        sockets := Function.update hub.sockets ws
          { hub.sockets ws with userId := some userId, handlers := some userId } }
    | none => closeSocket hub ws 1008 "Invalid token"
  else closeSocket hub ws 1008 "Authentication required"

/-- The `message` handler (lines 26-47) of the handle `ws`; it runs only when the
handlers are installed. The second component tells whether the `catch` block ran. -/
def onMessage (hub : Hub) (ws : Nat) (message : Inbound) : Hub × Bool :=
  match (hub.sockets ws).handlers with
  | none => (hub, false)
  | some userId =>
    match message with
    | .malformed => (hub, true)
    | .nullValue => (hub, true)
    | .other => (hub, false)
    | .object type receiverId isTyping _ =>
      if type = some "typing" then
        match receiverId with
        | none => (hub, false)
        | some receiver =>
          match hub.clients receiver with
          | none => (hub, false)
          | some receiverWs =>
            if (hub.sockets receiverWs).readyState = 1 then
              (sendNotice hub receiverWs { senderId := userId, isTyping := isTyping }, false)
            else (hub, false)
      else (hub, false)

/-- The `close` handler (lines 49-52) of the handle `ws`. -/
def onClose (hub : Hub) (ws : Nat) : Hub :=
  match (hub.sockets ws).handlers with
  | none => hub
  | some userId => { hub with clients := Function.update hub.clients userId none }

/-- The `error` handler (lines 54-57) of the handle `ws`. -/
def onError (hub : Hub) (ws : Nat) : Hub :=
  match (hub.sockets ws).handlers with
  | none => hub
  | some userId => { hub with clients := Function.update hub.clients userId none }

/-- A handle as the server receives it: open, with nothing sent and no handler. -/
def freshSocket : Socket :=
  { readyState := 1, userId := none, handlers := none, sent := [], closed := none }

/-- The hub at start-up: no client, every handle fresh. -/
def emptyHub : Hub :=
  { clients := fun _ => none, sockets := fun _ => freshSocket }

/-- A token check that knows user 1 (`alice`) and user 2 (`bob`). -/
def demoVerify (token : String) : Option Nat :=
  if token = "alice" then some 1 else if token = "bob" then some 2 else none

/-- The enum `app_role`. -/
inductive AppRole where
  | admin
  | customer
  deriving DecidableEq

/-- Row of `user_roles`. -/
structure UserRole where
  user_id : Nat
  role : AppRole
  deriving DecidableEq

/-- Row of `chat_messages`, with the columns the migration of `src/db/index.js`
(lines 249-256) creates. -/
structure ChatMessage where
  id : Nat
  sender_id : Nat
  receiver_id : Option Nat
  message : String
  is_from_admin : Bool
  created_at : Nat
  deriving DecidableEq

/-- The tables the chat routes touch; `full_name` is the `profiles` table seen through
its primary key (the name of the profile with that id, if there is one and it has a
name). -/
structure ChatDb where
  user_roles : List UserRole
  chat_messages : List ChatMessage
  full_name : Nat → Option String
  nextId : Nat

/-- Body of `POST /chat`. The field `is_from_admin` is absent or a JSON boolean; a body
that carries another JSON value there is left out of the model. -/
structure SendBody where
  message : Option String
  receiver_id : Option Nat
  is_from_admin : Option Bool
  deriving DecidableEq

/-- Answer of `POST /chat`. -/
inductive SendResponse where
  | created (row : ChatMessage)
  | badRequest
  deriving DecidableEq

/-- A row of the answer of `GET /chat`: `cm.*` and `p.full_name`. -/
structure ChatRow where
  message : ChatMessage
  full_name : Option String
  deriving DecidableEq

/-- The role check of the chat routes: `SELECT role FROM user_roles WHERE user_id = $1
AND role = 'admin'` has a row. -/
def isAdmin (db : ChatDb) (userId : Nat) : Bool :=
  decide (0 < (db.user_roles.filter
    (fun r => r.user_id == userId && r.role == AppRole.admin)).length)

/-- The handler of `POST /chat` (`src/routes/chat.js`, lines 70-95) for the
authenticated user `userId`. -/
def sendMessage (now : Nat) (db : ChatDb) (userId : Nat) (body : SendBody) :
    ChatDb × SendResponse :=
  if strTruthy body.message then
    let row : ChatMessage :=
      { id := db.nextId
        sender_id := userId
        receiver_id := body.receiver_id
        message := body.message.getD ""
        is_from_admin := isAdmin db userId || body.is_from_admin.getD false || false
        created_at := now }
    ({ db with chat_messages := db.chat_messages ++ [row], nextId := db.nextId + 1 },
      .created row)
  else (db, .badRequest)

/-- The handler of `GET /chat` (lines 37-67) for the authenticated user `userId`:
every message for an administrator, the messages sent by or addressed to the caller
otherwise, by ascending `created_at`, each with the name of the sender. -/
def listMessages (db : ChatDb) (userId : Nat) : List ChatRow :=
  ((if isAdmin db userId then db.chat_messages
    else db.chat_messages.filter
      (fun cm => cm.sender_id == userId || cm.receiver_id == some userId)).insertionSort
    (fun a b => a.created_at ≤ b.created_at)).map
    (fun cm => { message := cm, full_name := db.full_name cm.sender_id })

/-- A chat database where user 1 is an administrator and user 7 a customer, with one
earlier message of user 7. -/
def demoChat : ChatDb :=
  { user_roles := [{ user_id := 1, role := .admin }, { user_id := 7, role := .customer }]
    chat_messages :=
      [{ id := 1, sender_id := 7, receiver_id := none, message := "hello",
         is_from_admin := false, created_at := 3 }]
    full_name := fun u => if u = 7 then some "Asha" else none
    nextId := 2 }

/-- The names of the columns of `chat_messages` (`src/db/index.js`, lines 249-256). -/
def chatMessagesColumns : List String :=
  ["id", "sender_id", "receiver_id", "message", "is_from_admin", "created_at"]

/-- A condition `column = value` in the `WHERE` clause of a statement on
`chat_messages`, on a `BOOLEAN` column or on a `UUID` column. -/
inductive ChatCond where
  | boolEq (column : String) (value : Bool)
  | idEq (column : String) (id : IdText)
  deriving DecidableEq

/-- Whether the table can evaluate the condition: its column exists and a value
compared with a `UUID` column is UUID text. -/
def ChatCond.valid : ChatCond → Bool
  | .boolEq column _ => chatMessagesColumns.contains column
  | .idEq column id => chatMessagesColumns.contains column && id != IdText.malformed

/-- The value of a `BOOLEAN` column of a row, by the name of the column. -/
def ChatMessage.boolColumn (cm : ChatMessage) (column : String) : Option Bool :=
  if column = "is_from_admin" then some cm.is_from_admin else none

/-- The value of a `UUID` column of a row, by the name of the column (none for
`NULL`). -/
def ChatMessage.idColumn (cm : ChatMessage) (column : String) : Option Nat :=
  if column = "id" then some cm.id
  else if column = "sender_id" then some cm.sender_id
  else if column = "receiver_id" then cm.receiver_id
  else none

/-- Whether a row satisfies a condition. -/
def ChatCond.holds (cm : ChatMessage) : ChatCond → Bool
  | .boolEq column value => cm.boolColumn column == some value
  | .idEq column id => id != IdText.malformed && cm.idColumn column == some id.rowId

/-- The statement `SELECT COUNT(*) FROM chat_messages WHERE ...`; none when the
statement throws. -/
def countChat (db : ChatDb) (conds : List ChatCond) : Option Nat :=
  if conds.all ChatCond.valid then
    some (db.chat_messages.filter (fun cm => conds.all (ChatCond.holds cm))).length
  else none

/-- A row with a `BOOLEAN` column set. -/
def ChatMessage.setBool (cm : ChatMessage) (column : String) (value : Bool) : ChatMessage :=
  if column = "is_from_admin" then { cm with is_from_admin := value } else cm

/-- The statement `UPDATE chat_messages SET column = value WHERE ...`; none when the
statement throws. -/
def updateChat (db : ChatDb) (column : String) (value : Bool) (conds : List ChatCond) :
    Option ChatDb :=
  if chatMessagesColumns.contains column && conds.all ChatCond.valid then
    some { db with
      chat_messages := db.chat_messages.map (fun cm =>
        if conds.all (ChatCond.holds cm) then cm.setBool column value else cm) }
  else none

/-- Answer of `GET /chat/unread`. -/
inductive UnreadResponse where
  | count (n : Nat)
  | serverError
  deriving DecidableEq

/-- Answer of `POST /chat/mark-read`. -/
inductive MarkReadResponse where
  | success
  | senderRequired
  | serverError
  deriving DecidableEq

/-- The handler of `GET /chat/unread` (`src/routes/chat.js`, lines 8-34) for the
authenticated user `userId`: `SELECT COUNT(*) FROM chat_messages WHERE is_read = FALSE`
with `AND is_from_admin = FALSE` for an administrator and `AND receiver_id = $1 AND
is_from_admin = TRUE` otherwise; the `catch` answers `500` when the statement
throws. -/
def unreadCount (db : ChatDb) (userId : Nat) : UnreadResponse :=
  match countChat db
      (.boolEq "is_read" false ::
        (if isAdmin db userId then [.boolEq "is_from_admin" false]
          else [.idEq "receiver_id" (.uuid userId), .boolEq "is_from_admin" true])) with
  | some n => .count n
  | none => .serverError

/-- The handler of `POST /chat/mark-read` (lines 98-138) for the authenticated user
`userId` and the `sender_id` of the body (absent when it is missing or falsy): for an
administrator `UPDATE chat_messages SET is_read = TRUE WHERE sender_id = $1 AND
is_from_admin = FALSE AND is_read = FALSE`, otherwise `... WHERE is_read = FALSE AND
receiver_id = $1 AND is_from_admin = TRUE`; the `catch` answers `500` when the
statement throws. -/
def markRead (db : ChatDb) (userId : Nat) (sender_id : Option IdText) :
    ChatDb × MarkReadResponse :=
  if isAdmin db userId then
    match sender_id with
    | none => (db, .senderRequired)
    | some sender =>
      match updateChat db "is_read" true
          [.idEq "sender_id" sender, .boolEq "is_from_admin" false, .boolEq "is_read" false] with
      | some db' => (db', .success)
      | none => (db, .serverError)
  else
    match updateChat db "is_read" true
        [.boolEq "is_read" false, .idEq "receiver_id" (.uuid userId),
          .boolEq "is_from_admin" true] with
    | some db' => (db', .success)
    | none => (db, .serverError)

/-- Answer of `GET /orders/:id`. The joined columns `product_name` and
`product_image_url` of the item rows are left out, as the product rows of this model
carry neither. -/
inductive OrderView where
  | ok (order : Order) (order_items : List OrderItem)
  | notFound
  | forbidden
  | serverError
  deriving DecidableEq

/-- The role check of the order routes: `SELECT role FROM user_roles WHERE user_id = $1
AND role = 'admin'` has a row. -/
def hasAdminRole (roles : List UserRole) (userId : Nat) : Bool :=
  decide (0 < (roles.filter (fun r => r.user_id == userId && r.role == AppRole.admin)).length)

/-- The handler of `GET /orders/:id` (`src/routes/orders.js`, lines 60-96) for the
authenticated user `caller` and the `id` of the path; an `id` that is no UUID text
makes the first query throw and the `catch` answers `500`. -/
def getOrder (roles : List UserRole) (s : Store) (caller : Nat) (id : IdText) : OrderView :=
  match id with
  | .malformed => .serverError
  | .uuid orderId =>
    match s.orders.filter (fun o => o.id == orderId) with
    | [] => .notFound
    | order :: _ =>
      if order.user_id != caller && !(hasAdminRole roles caller) then .forbidden
      else .ok order (s.order_items.filter (fun r => r.order_id == orderId))

/-- The handler of `GET /orders` (lines 9-57) for the authenticated user `caller`:
every order for an administrator, the orders of the caller otherwise, newest first,
each with its item rows (the profile name and the product columns are left out). -/
def listOrders (roles : List UserRole) (s : Store) (caller : Nat) :
    List (Order × List OrderItem) :=
  ((if hasAdminRole roles caller then s.orders
    else s.orders.filter (fun o => o.user_id == caller)).insertionSort
    (fun a b => b.created_at ≤ a.created_at)).map
    (fun o => (o, s.order_items.filter (fun r => r.order_id == o.id)))

/-- Spec side: the frames of C26, those the relay has nothing to do with: malformed
JSON, JSON that is no object, an object whose `type` is not `typing`, and a typing
frame without `receiverId`. -/
def Inbound.isIgnored : Inbound → Bool
  | .malformed => true
  | .nullValue => true
  | .other => true
  | .object type receiverId _ _ => type != some "typing" || receiverId == none

/-- A coupon of 50 percent whose validity starts at time 50. -/
def demoCouponSoon : Coupon :=
  { id := 3, code := "SOON", discount_percentage := some 50, discount_amount := none,
    min_purchase_amount := some (.text 0), max_uses := none, used_count := some 0,
    valid_from := 50, valid_until := 100, is_active := some true }

/-- The demo store with the coupon `SOON` added. -/
def demoStoreSoon : Store :=
  { demoStore with coupons := demoStore.coupons ++ [demoCouponSoon] }

/-- Row of `users`. -/
structure User where
  id : Nat
  phone : String
  password_hash : String
  deriving DecidableEq

/-- Row of `profiles` (the columns signup writes). -/
structure Profile where
  id : Nat
  full_name : Option String
  phone : Option String
  deriving DecidableEq

/-- The tables the signup route touches. -/
structure AuthDb where
  users : List User
  profiles : List Profile
  user_roles : List UserRole
  nextId : Nat
  deriving DecidableEq

/-- Body of `POST /auth/signup`; every field is a string when present. -/
structure SignupBody where
  phone : Option String
  password : Option String
  fullName : Option String
  countryCode : Option String
  phoneNumber : Option String
  confirmPassword : Option String
  deriving DecidableEq

/-- The `400` answers of signup. -/
inductive SignupError where
  | passwordRequired
  | passwordTooShort
  | passwordsDoNotMatch
  | phoneRequired
  | invalidPhoneFormat
  | userExists
  deriving DecidableEq

/-- Answer of `POST /auth/signup`. -/
inductive SignupResponse where
  | created (token : String) (id : Nat) (phone : String)
  | badRequest (error : SignupError)
  deriving DecidableEq

/-- The class `\d` of a JavaScript regular expression: the ten ASCII digits. -/
def jsDigit (c : Char) : Bool :=
  decide (48 ≤ c.toNat) && decide (c.toNat ≤ 57)

/-- The class `\s` of a JavaScript regular expression. -/
def jsSpace (c : Char) : Bool :=
  [9, 10, 11, 12, 13, 32, 160, 5760, 8232, 8233, 8239, 8287, 12288, 65279].contains c.toNat ||
    (decide (8192 ≤ c.toNat) && decide (c.toNat ≤ 8202))

/-- The `length` of a JavaScript string, in UTF-16 code units. -/
def jsLength (s : String) : Nat :=
  (s.toList.map (fun c => if c.toNat < 65536 then 1 else 2)).sum

/-- The expression `x.replace(/\D/g, '')`. -/
def digitsOnly (s : String) : String :=
  String.mk (s.toList.filter jsDigit)

/-- Lines 30-35: `phone`, or `countryCode` followed by the digits of `phoneNumber`
when both are given. -/
def finalPhone (body : SignupBody) : Option String :=
  if strTruthy body.countryCode && strTruthy body.phoneNumber then
    some (body.countryCode.getD "" ++ digitsOnly (body.phoneNumber.getD ""))
  else body.phone

/-- Line 42: `finalPhone.replace(/\s+/g, '').replace(/[-\s]/g, '')`. -/
def normalizePhone (s : String) : String :=
  String.mk ((s.toList.filter (fun c => !jsSpace c)).filter
    (fun c => !(c == '-' || jsSpace c)))

/-- Line 45: `normalizedPhone.match(/^\+\d{6,15}$/)`. -/
def matchesPhoneFormat (s : String) : Bool :=
  match s.toList with
  | '+' :: digits => digits.all jsDigit && decide (6 ≤ digits.length) && decide (digits.length ≤ 15)
  | _ => false

/-- The handler of `POST /auth/signup` (`src/routes/auth.js`, lines 10-100). `hash`
stands for `bcrypt.hash(password, 10)` and `sign` for `jwt.sign` on the user id and the
phone. -/
def signup (hash : String → String) (sign : Nat → String → String) (db : AuthDb)
    (body : SignupBody) : AuthDb × SignupResponse :=
  if strTruthy body.password = false then (db, .badRequest .passwordRequired)
  else if jsLength (body.password.getD "") < 6 then (db, .badRequest .passwordTooShort)
  else if strTruthy body.confirmPassword && body.password != body.confirmPassword then
    (db, .badRequest .passwordsDoNotMatch)
  else if strTruthy (finalPhone body) = false then (db, .badRequest .phoneRequired)
  else
    let normalizedPhone := normalizePhone ((finalPhone body).getD "")
    if matchesPhoneFormat normalizedPhone = false then (db, .badRequest .invalidPhoneFormat)
    else if 0 < (db.users.filter (fun u =>
        u.phone == normalizedPhone || u.phone == (finalPhone body).getD "")).length then
      (db, .badRequest .userExists)
    else
      let userId := db.nextId
      let role := if digitsOnly normalizedPhone = "255684868946" then AppRole.admin
        else AppRole.customer
      ({ users := db.users ++
            [{ id := userId, phone := normalizedPhone,
               password_hash := hash (body.password.getD "") }]
         profiles := db.profiles ++
            [{ id := userId,
               full_name := if strTruthy body.fullName then body.fullName else none,
               phone := some normalizedPhone }]
         user_roles := db.user_roles ++ [{ user_id := userId, role := role }]
         nextId := db.nextId + 1 },
        .created (sign userId normalizedPhone) userId normalizedPhone)

/-- An empty user database. -/
def emptyAuthDb : AuthDb :=
  { users := [], profiles := [], user_roles := [], nextId := 1 }

/-- A signup body with a full phone number and a password. -/
def demoSignup (phone : String) : SignupBody :=
  { phone := some phone, password := some "secret1", fullName := none, countryCode := none,
    phoneNumber := none, confirmPassword := none }

/-- The points at which the handler of `POST /orders` waits for a `db.query`: the
product read of the first loop for the head of `todo`, the coupon read, the order
insert, and in the second loop the product read, the item insert and the stock update
of one line. Another request may run between any two of them. -/
inductive Proc where
  | pricing (todo : List Item) (total : ℚ)
  | couponLookup (total : ℚ)
  | orderInsert (total discount_amount : ℚ)
  | itemRead (order : Order) (todo : List Item)
  | itemInsert (order : Order) (item : Item) (price : ℚ) (todo : List Item)
  | stockUpdate (order : Order) (item : Item) (todo : List Item)
  | finished (response : Response)

/-- Whether the handler has answered with the `201`. -/
def Proc.isCreated : Proc → Bool
  | .finished r => r.isCreated
  | _ => false

/-- The point the handler reaches when the request arrives (lines 101-105). -/
def startProc (req : PlaceRequest) : Proc :=
  match req.items with
  | none => .finished (.badRequest .itemsRequired)
  | some [] => .finished (.badRequest .itemsRequired)
  | some (item :: rest) => .pricing (item :: rest) 0

/-- The point after the first loop: the coupon read when a code is given, the order
insert otherwise. -/
def afterPricing (req : PlaceRequest) (total : ℚ) : Proc :=
  if strTruthy req.coupon_code then .couponLookup total else .orderInsert total 0

/-- The point after the stock update of a line: the next line, or the answer. -/
def afterLine (order : Order) (rest : List Item) : Proc :=
  match rest with
  | [] => .finished (.created order)
  | item :: todo => .itemRead order (item :: todo)

/-- One `db.query` of the handler of `POST /orders` with what the handler does on its
answer, up to the next `db.query`; no write fails. -/
def stepProc (now : Nat) (req : PlaceRequest) (s : Store) : Proc → Store × Proc
  | .pricing [] total => (s, afterPricing req total)
  | .pricing (item :: rest) total =>
    match item.product_id with
    | .malformed => (s, .finished .serverError)
    | .uuid id =>
      match selectProduct s id with
      | [] => (s, .finished (.badRequest (.productNotFound id)))
      | product :: _ =>
        if product.stock < item.quantity then
          (s, .finished (.badRequest (.insufficientStock id)))
        else
          match rest with
          | [] => (s, afterPricing req (total + (unitPrice product).toNumber * item.quantity))
          | next :: todo =>
            (s, .pricing (next :: todo) (total + (unitPrice product).toNumber * item.quantity))
  | .couponLookup total =>
    (s, .orderInsert (applyCoupon s now req.coupon_code total).1
      (applyCoupon s now req.coupon_code total).2)
  | .orderInsert total discount_amount =>
    match req.shipping_address, req.phone with
    | some shipping_address, some phone =>
      (insertOrder s (newOrder s now req shipping_address phone total discount_amount),
        afterLine (newOrder s now req shipping_address phone total discount_amount)
          (req.items.getD []))
    | _, _ => (s, .finished .serverError)
  | .itemRead order [] => (s, .finished (.created order))
  | .itemRead order (item :: rest) =>
    match item.product_id with
    | .malformed => (s, .finished .serverError)
    | .uuid id =>
      match selectProduct s id with
      | [] => (s, .finished .serverError)
      | product :: _ => (s, .itemInsert order item (unitPrice product).toNumber rest)
  | .itemInsert order item price rest =>
    (insertOrderItem s order.id item price, .stockUpdate order item rest)
  | .stockUpdate order item rest =>
    (updateStock s item.quantity item.product_id.rowId, afterLine order rest)
  | .finished response => (s, .finished response)

/-- The handler run on its own for `n` queries. -/
def runAlone (now : Nat) (req : PlaceRequest) : Nat → Store × Proc → Store × Proc
  | 0, st => st
  | n + 1, st => runAlone now req n (stepProc now req st.1 st.2)

/-- Two requests in flight on one store: the schedule tells, query by query, whether
the first (`true`) or the second (`false`) request runs next. -/
def runSchedule (now : Nat) (reqA reqB : PlaceRequest) :
    List Bool → Store × Proc × Proc → Store × Proc × Proc
  | [], st => st
  | true :: rest, (s, a, b) =>
    runSchedule now reqA reqB rest ((stepProc now reqA s a).1, (stepProc now reqA s a).2, b)
  | false :: rest, (s, a, b) =>
    runSchedule now reqA reqB rest ((stepProc now reqB s b).1, a, (stepProc now reqB s b).2)

/-- Spec side: from the point `p` on store `s` the handler, left alone, ends in
`final` and stays there. -/
def Converges (now : Nat) (req : PlaceRequest) (s : Store) (p : Proc)
    (final : Store × Proc) : Prop :=
  ∃ n, ∀ m, n ≤ m → runAlone now req m (s, p) = final

/-! ## Properties -/

theorem priceItems_eq (s : Store) (items : List Item) (total : ℚ) :
    priceItems s items total =
      match items.findSome? (itemError s) with
      | some e => .error e
      | none => .ok (total + subtotal s items) := by
  induction items generalizing total with
  | nil => simp [priceItems, subtotal]
  | cons item rest ih =>
    unfold priceItems
    cases hid : item.product_id with
    | malformed => simp [List.findSome?, itemError, hid]
    | uuid id =>
      simp only []
      cases hsel : selectProduct s id with
      | nil =>
        simp [List.findSome?, itemError, unresolved, productOf, hid, hsel]
      | cons product tl =>
        by_cases hlt : product.stock < item.quantity
        · simp [List.findSome?, itemError, unresolved, exceedsStock, productOf, hid, hsel, hlt]
        · simp only [hlt, if_false]
          rw [ih]
          simp [List.findSome?, itemError, unresolved, exceedsStock, productOf, hid, hsel, hlt,
            subtotal, lineAmount]
          cases rest.findSome? (itemError s) <;> simp [add_assoc]

theorem selectProduct_insertOrderItem (s : Store) (order_id : Nat) (item : Item) (price : ℚ)
    (x : Nat) : selectProduct (insertOrderItem s order_id item price) x = selectProduct s x := rfl

theorem selectProduct_updateStock (s : Store) (q : Int) (pid x : Nat) :
    selectProduct (updateStock s q pid) x =
      (selectProduct s x).map
        (fun p => if p.id == pid then { p with stock := p.stock - q } else p) := by
  unfold selectProduct updateStock
  simp only [List.filter_map]
  congr 1
  apply List.filter_congr
  intro p _
  by_cases h : p.id = pid <;> simp [h]

theorem productOf_insertOrderItem (s : Store) (order_id : Nat) (item i : Item) (price : ℚ) :
    productOf (insertOrderItem s order_id item price) i = productOf s i := rfl

theorem productOf_updateStock (s : Store) (q : Int) (pid : Nat) (item : Item) :
    productOf (updateStock s q pid) item =
      (productOf s item).map
        (fun p => if p.id == pid then { p with stock := p.stock - q } else p) := by
  unfold productOf
  cases item.product_id with
  | malformed => rfl
  | uuid id =>
    simp only [selectProduct_updateStock]
    cases selectProduct s id <;> rfl

theorem linePrice_updateStock (s : Store) (q : Int) (pid : Nat) (item : Item) :
    linePrice (updateStock s q pid) item = linePrice s item := by
  unfold linePrice
  rw [productOf_updateStock]
  cases productOf s item with
  | none => rfl
  | some p =>
    by_cases h : p.id = pid <;> simp [h, unitPrice]

theorem unresolved_updateStock (s : Store) (q : Int) (pid : Nat) (item : Item) :
    unresolved (updateStock s q pid) item = unresolved s item := by
  unfold unresolved
  rw [productOf_updateStock]
  cases productOf s item <;> rfl

theorem itemRows_congr (s s' : Store) (order_id : Nat) (items : List Item) (n : Nat)
    (h : ∀ item, linePrice s' item = linePrice s item) :
    itemRows s' order_id items n = itemRows s order_id items n := by
  induction items generalizing n with
  | nil => rfl
  | cons item rest ih => simp [itemRows, h, ih]

theorem qtySum_cons (item : Item) (rest : List Item) (x : Nat) :
    qtySum (item :: rest) x =
      (if item.product_id = IdText.uuid x then item.quantity else 0) + qtySum rest x := by
  unfold qtySum
  by_cases h : item.product_id = IdText.uuid x <;> simp [List.filter_cons, h]

theorem linePrice_writeLine (s : Store) (order_id : Nat) (item i : Item) :
    linePrice (writeLine s order_id item) i = linePrice s i := by
  unfold writeLine
  rw [linePrice_updateStock]
  rfl

theorem finalStore_nil (s : Store) (order_id : Nat) : finalStore s order_id [] = s := by
  cases s
  simp [finalStore, qtySum, itemRows]

theorem rowId_of_resolved (s : Store) (item : Item) (h : unresolved s item = false) :
    item.product_id = IdText.uuid item.product_id.rowId := by
  unfold unresolved productOf at h
  cases hid : item.product_id with
  | malformed => simp [hid] at h
  | uuid id => rfl

theorem finalStore_writeLine (s : Store) (order_id : Nat) (item : Item) (rest : List Item)
    (hres : unresolved s item = false) :
    finalStore (writeLine s order_id item) order_id rest = finalStore s order_id (item :: rest) := by
  have hrows := itemRows_congr s (writeLine s order_id item) order_id rest (s.nextId + 1)
    (linePrice_writeLine s order_id item)
  obtain ⟨id, hid⟩ : ∃ id, item.product_id = IdText.uuid id :=
    ⟨_, rowId_of_resolved s item hres⟩
  have hrow : item.product_id.rowId = id := by rw [hid]; rfl
  simp only [finalStore, Store.mk.injEq]
  refine ⟨?_, rfl, rfl, ?_, ?_⟩
  · simp only [writeLine, updateStock, insertOrderItem, List.map_map, hrow]
    apply List.map_congr_left
    intro p _
    by_cases h : p.id = id
    · simp [h, hid, qtySum_cons, sub_sub]
    · have h' : ¬ id = p.id := fun e => h e.symm
      simp [h, h', hid, qtySum_cons]
  · have : (writeLine s order_id item).order_items = s.order_items ++
        [{ id := s.nextId, order_id := order_id, product_id := item.product_id.rowId,
           quantity := item.quantity, price := linePrice s item }] := rfl
    have hn : (writeLine s order_id item).nextId = s.nextId + 1 := rfl
    rw [this, hn, hrows]
    simp [itemRows]
  · have hn : (writeLine s order_id item).nextId = s.nextId + 1 := rfl
    rw [hn]
    simp
    omega

theorem unresolved_writeLine (s : Store) (order_id : Nat) (item i : Item) :
    unresolved (writeLine s order_id item) i = unresolved s i := by
  unfold writeLine
  rw [unresolved_updateStock]
  rfl

theorem writeItems_cons_resolved (fault : Option Nat) (order_id : Nat) (item : Item)
    (rest : List Item) (w : Nat) (s : Store) (h : unresolved s item = false) :
    writeItems fault order_id (item :: rest) w s =
      if fault = some w then (s, false)
      else if fault = some (w + 1) then
        (insertOrderItem s order_id item (linePrice s item), false)
      else writeItems fault order_id rest (w + 2) (writeLine s order_id item) := by
  unfold unresolved productOf at h
  rw [writeItems]
  cases hid : item.product_id with
  | malformed => simp [hid] at h
  | uuid id =>
    rw [hid] at h
    cases hsel : selectProduct s id with
    | nil => simp [hsel] at h
    | cons product tl =>
      simp only [hsel, writeLine, linePrice, productOf, hid, List.head?_cons, IdText.rowId]

theorem writeItems_noFault (fault : Option Nat) (order_id : Nat) (items : List Item) (w : Nat)
    (s : Store) (hres : ∀ item ∈ items, unresolved s item = false)
    (hf : ∀ k, fault = some k → k < w ∨ w + 2 * items.length ≤ k) :
    writeItems fault order_id items w s = (finalStore s order_id items, true) := by
  induction items generalizing w s with
  | nil => simp [writeItems, finalStore_nil]
  | cons item rest ih =>
    rw [writeItems_cons_resolved fault order_id item rest w s (hres item (by simp))]
    have h0 : fault ≠ some w := by
      intro e
      have := hf w e
      simp at this
    have h1 : fault ≠ some (w + 1) := by
      intro e
      have := hf (w + 1) e
      simp at this
      omega
    rw [if_neg h0, if_neg h1, ih, finalStore_writeLine _ _ _ _ (hres item (by simp))]
    · intro i hi
      rw [unresolved_writeLine]
      exact hres i (by simp [hi])
    · intro k hk
      have := hf k hk
      simp at this
      omega

theorem storeAfterWrites_writeLine (s : Store) (order_id : Nat) (item : Item) (rest : List Item)
    (d : Nat) (hres : unresolved s item = false) :
    storeAfterWrites (writeLine s order_id item) order_id rest d =
      storeAfterWrites s order_id (item :: rest) (d + 2) := by
  have hd : (d + 2) / 2 = d / 2 + 1 := by omega
  have hm : (d + 2) % 2 = d % 2 := by omega
  simp only [storeAfterWrites, hd, hm, List.take_succ_cons, List.drop_succ_cons,
    finalStore_writeLine _ _ _ _ hres, linePrice_writeLine]

theorem writeItems_fault (order_id : Nat) (items : List Item) (w : Nat) (s : Store) (d : Nat)
    (hres : ∀ item ∈ items, unresolved s item = false) (hd : d < 2 * items.length) :
    writeItems (some (w + d)) order_id items w s = (storeAfterWrites s order_id items d, false) := by
  induction items generalizing w s d with
  | nil => simp at hd
  | cons item rest ih =>
    rw [writeItems_cons_resolved _ order_id item rest w s (hres item (by simp))]
    match d, hd with
    | 0, _ => simp [storeAfterWrites, finalStore_nil]
    | 1, _ => simp [storeAfterWrites, finalStore_nil]
    | d + 2, hd =>
      have h0 : (some (w + (d + 2)) : Option Nat) ≠ some w := by simp
      have h1 : (some (w + (d + 2)) : Option Nat) ≠ some (w + 1) := by simp
      rw [if_neg h0, if_neg h1]
      have e : w + (d + 2) = (w + 2) + d := by omega
      rw [e, ih, storeAfterWrites_writeLine _ _ _ _ _ (hres item (by simp))]
      · intro i hi
        rw [unresolved_writeLine]
        exact hres i (by simp [hi])
      · simp at hd
        omega

theorem resolved_uuid (s : Store) (item : Item) (h : unresolved s item = false) :
    ∃ id, item.product_id = IdText.uuid id :=
  ⟨_, rowId_of_resolved s item h⟩

theorem findSome_none_resolved (s : Store) (items : List Item)
    (h : items.findSome? (itemError s) = none) :
    ∀ item ∈ items, unresolved s item = false ∧ exceedsStock s item = false := by
  intro item hi
  have := (List.findSome?_eq_none_iff.mp h) item hi
  unfold itemError at this
  cases hid : item.product_id with
  | malformed => simp [hid] at this
  | uuid id =>
    simp only [hid] at this
    by_cases hu : unresolved s item = true
    · simp [hu] at this
    · by_cases he : exceedsStock s item = true
      · simp [hu, he] at this
      · simp at hu he
        exact ⟨hu, he⟩

theorem findSome_none_of_resolved (s : Store) (items : List Item)
    (h : ∀ item ∈ items, unresolved s item = false ∧ exceedsStock s item = false) :
    items.findSome? (itemError s) = none := by
  apply List.findSome?_eq_none_iff.mpr
  intro item hi
  obtain ⟨id, hid⟩ := resolved_uuid s item (h item hi).1
  simp [itemError, hid, h item hi]

theorem commitOrder_eq (now : Nat) (fault : Option Nat) (s : Store) (req : PlaceRequest)
    (items : List Item) (sub : ℚ) (a p : String)
    (ha : req.shipping_address = some a) (hp : req.phone = some p)
    (hres : ∀ item ∈ items, unresolved s item = false) :
    commitOrder now fault s req items sub =
      commitOutcome fault s
        (newOrder s now req a p (applyCoupon s now req.coupon_code sub).1
          (applyCoupon s now req.coupon_code sub).2) items := by
  have hres' : ∀ (o : Order), ∀ item ∈ items, unresolved (insertOrder s o) item = false :=
    fun _ item hi => hres item hi
  unfold commitOrder commitOutcome
  simp only [ha, hp]
  match fault with
  | none =>
    simp only [reduceCtorEq, if_false]
    rw [writeItems_noFault none _ items 1 _ (hres' _) (by simp)]
  | some 0 => simp
  | some (d + 1) =>
    have h0 : (some (d + 1) : Option Nat) ≠ some 0 := by simp
    simp only [h0, if_false]
    by_cases hd : d < 2 * items.length
    · rw [if_pos hd]
      have e : d + 1 = 1 + d := by omega
      rw [e, writeItems_fault _ items 1 _ d (hres' _) hd]
    · rw [if_neg hd]
      rw [writeItems_noFault _ _ items 1 _ (hres' _)]
      intro k hk
      simp at hk
      omega

theorem place_valid (now : Nat) (fault : Option Nat) (s : Store) (req : PlaceRequest)
    (items : List Item) (hit : req.items = some items) (hne : items ≠ [])
    (hv : items.findSome? (itemError s) = none) :
    place now fault s req = commitOrder now fault s req items (subtotal s items) := by
  unfold place
  cases items with
  | nil => exact absurd rfl hne
  | cons item rest =>
    simp only [hit]
    rw [priceItems_eq, hv]
    simp

theorem place_invalid (now : Nat) (fault : Option Nat) (s : Store) (req : PlaceRequest)
    (r : Response) (h : firstOffence s req.items = some r) :
    place now fault s req = (s, r) := by
  unfold place
  unfold firstOffence at h
  match hit : req.items with
  | none => rw [hit] at h; simp at h; simp [h]
  | some [] => rw [hit] at h; simp at h; simp [h]
  | some (item :: rest) =>
    rw [hit] at h
    simp only at h
    simp only
    rw [priceItems_eq, h]

theorem commitOrder_not_badRequest (now : Nat) (fault : Option Nat) (s : Store)
    (req : PlaceRequest) (items : List Item) (sub : ℚ) (e : PlaceError) :
    (commitOrder now fault s req items sub).2 ≠ .badRequest e := by
  unfold commitOrder
  split
  · split
    · simp
    · dsimp only
      generalize writeItems fault _ items 1 _ = r
      rcases r with ⟨s2, b⟩
      cases b <;> simp
  · simp

theorem firstOffence_none (s : Store) (cart : Option (List Item))
    (h : firstOffence s cart = none) :
    ∃ items, cart = some items ∧ items ≠ [] ∧ items.findSome? (itemError s) = none := by
  unfold firstOffence at h
  match cart, h with
  | some (item :: rest), h => exact ⟨item :: rest, rfl, by simp, h⟩

theorem firstOffence_split (s : Store) (pre post : List Item) (item : Item)
    (hpre : ∀ i ∈ pre, unresolved s i = false ∧ exceedsStock s i = false) :
    firstOffence s (some (pre ++ item :: post)) =
      ((itemError s item).or (post.findSome? (itemError s))) := by
  have hnone : pre.findSome? (itemError s) = none := findSome_none_of_resolved s pre hpre
  have : (pre ++ item :: post).findSome? (itemError s) =
      ((itemError s item).or (post.findSome? (itemError s))) := by
    rw [List.findSome?_append, hnone]
    simp only [Option.or, List.findSome?_cons]
    cases itemError s item <;> rfl
  cases pre with
  | nil => simpa [firstOffence] using this
  | cons a l => simpa [firstOffence] using this

theorem itemError_isSome (s : Store) (item : Item) :
    (itemError s item).isSome = (unresolved s item || exceedsStock s item) := by
  unfold itemError
  cases hid : item.product_id with
  | malformed => simp [unresolved, productOf, hid]
  | uuid id =>
    simp only []
    by_cases hu : unresolved s item = true
    · simp [hu]
    · by_cases he : exceedsStock s item = true
      · simp [hu, he]
      · simp [hu, he]

theorem firstOffence_some_iff (s : Store) (cart : Option (List Item)) :
    (firstOffence s cart).isSome = true ↔
      (cart = none ∨ cart = some [] ∨
        ∃ items, cart = some items ∧
          ∃ item ∈ items, unresolved s item = true ∨ exceedsStock s item = true) := by
  constructor
  · intro h
    match cart with
    | none => exact Or.inl rfl
    | some [] => exact Or.inr (Or.inl rfl)
    | some (item :: rest) =>
      refine Or.inr (Or.inr ⟨item :: rest, rfl, ?_⟩)
      by_contra hcon
      have hall : ∀ i ∈ item :: rest, unresolved s i = false ∧ exceedsStock s i = false := by
        intro i hi
        by_contra hi'
        apply hcon
        refine ⟨i, hi, ?_⟩
        by_cases hu : unresolved s i = true
        · exact Or.inl hu
        · right
          simp at hu
          simp [hu] at hi'
          exact hi'
      have := findSome_none_of_resolved s _ hall
      simp [firstOffence, this] at h
  · rintro (hnone | hnil | ⟨items, hit, item, hi, hoff⟩)
    · simp [hnone, firstOffence]
    · simp [hnil, firstOffence]
    · cases hfo : firstOffence s cart with
      | some e => rfl
      | none =>
        obtain ⟨items', hit', _, hv⟩ := firstOffence_none s cart hfo
        rw [hit] at hit'
        cases hit'
        have := findSome_none_resolved s items hv item hi
        rcases hoff with h | h
        · rw [this.1] at h; cases h
        · rw [this.2] at h; cases h

theorem commitOrder_missing_field (now : Nat) (fault : Option Nat) (s : Store)
    (req : PlaceRequest) (items : List Item) (sub : ℚ)
    (h : req.shipping_address = none ∨ req.phone = none) :
    commitOrder now fault s req items sub = (s, .serverError) := by
  unfold commitOrder
  rcases h with h | h
  · simp [h]
  · cases hs : req.shipping_address <;> simp [h]

theorem itemError_not_created (s : Store) (item : Item) (r : Response)
    (h : itemError s item = some r) : r.isCreated = false := by
  unfold itemError at h
  cases hid : item.product_id with
  | malformed =>
    simp only [hid, Option.some.injEq] at h
    subst h
    rfl
  | uuid id =>
    simp only [hid] at h
    split at h
    · simp only [Option.some.injEq] at h
      subst h
      rfl
    · split at h
      · simp only [Option.some.injEq] at h
        subst h
        rfl
      · simp at h

theorem firstOffence_not_created (s : Store) (cart : Option (List Item)) (r : Response)
    (h : firstOffence s cart = some r) : r.isCreated = false := by
  unfold firstOffence at h
  match cart, h with
  | none, h =>
    simp only [Option.some.injEq] at h
    subst h
    rfl
  | some [], h =>
    simp only [Option.some.injEq] at h
    subst h
    rfl
  | some (item :: rest), h =>
    obtain ⟨i, _, hi⟩ := List.exists_of_findSome?_eq_some h
    exact itemError_not_created s i r hi

theorem place_created (now : Nat) (fault : Option Nat) (s s' : Store) (req : PlaceRequest)
    (order : Order) (h : place now fault s req = (s', .created order)) :
    ∃ items a p, req.items = some items ∧ items ≠ [] ∧
      (∀ i ∈ items, unresolved s i = false ∧ exceedsStock s i = false) ∧
      req.shipping_address = some a ∧ req.phone = some p ∧
      order = newOrder s now req a p (applyCoupon s now req.coupon_code (subtotal s items)).1
        (applyCoupon s now req.coupon_code (subtotal s items)).2 ∧
      s' = finalStore (insertOrder s order) order.id items := by
  cases hfo : firstOffence s req.items with
  | some e =>
    rw [place_invalid now fault s req e hfo] at h
    have hc := firstOffence_not_created s req.items e hfo
    simp only [Prod.mk.injEq] at h
    rw [h.2] at hc
    cases hc
  | none =>
    obtain ⟨items, hit, hne, hv⟩ := firstOffence_none s req.items hfo
    have hall := findSome_none_resolved s items hv
    rw [place_valid now fault s req items hit hne hv] at h
    cases ha : req.shipping_address with
    | none =>
      rw [commitOrder_missing_field now fault s req items _ (Or.inl ha)] at h
      simp at h
    | some a =>
      cases hp : req.phone with
      | none =>
        rw [commitOrder_missing_field now fault s req items _ (Or.inr hp)] at h
        simp at h
      | some p =>
        rw [commitOrder_eq now fault s req items _ a p ha hp (fun i hi => (hall i hi).1)] at h
        refine ⟨items, a, p, hit, hne, hall, rfl, rfl, ?_⟩
        unfold commitOutcome at h
        match fault, h with
        | none, h =>
          simp only [Prod.mk.injEq, Response.created.injEq] at h
          obtain ⟨h1, h2⟩ := h
          subst h2
          exact ⟨rfl, h1.symm⟩
        | some 0, h => simp at h
        | some (d + 1), h =>
          by_cases hd : d < 2 * items.length
          · simp [hd] at h
          · simp only [hd, if_false, Prod.mk.injEq, Response.created.injEq] at h
            obtain ⟨h1, h2⟩ := h
            subst h2
            exact ⟨rfl, h1.symm⟩

theorem storeAfterWrites_orders (s : Store) (order_id : Nat) (items : List Item) (d : Nat) :
    (storeAfterWrites s order_id items d).orders = s.orders := by
  unfold storeAfterWrites
  dsimp only
  split
  · rfl
  · split <;> rfl

/-- C1, counterexample: a cart whose only line carries a `product_id` that is no UUID
text, and so resolves to no product, is answered with the `500` of the `catch` block,
not with the `400` of an unknown product; the store is as before. -/
theorem place_malformed_product_id_is_server_error :
    unresolved demoStore ⟨.malformed, 1⟩ = true ∧
    place 5 none demoStore (demoRequest [⟨.malformed, 1⟩] none) = (demoStore, .serverError) ∧
    ¬ ∃ e, (place 5 none demoStore (demoRequest [⟨.malformed, 1⟩] none)).2 = .badRequest e := by
  refine ⟨by decide, by decide, ?_⟩
  rintro ⟨e, he⟩
  have h : (place 5 none demoStore (demoRequest [⟨.malformed, 1⟩] none)).2 = .serverError := by
    decide
  rw [h] at he
  cases he

/-- C1, amended: with the storage accepting every write and both shipping fields in the
body, the placement fails exactly when the cart is absent or empty, or one of its lines
resolves to no product or asks for more than the stock of its product. Whatever the
storage does, the answer for an absent or empty cart is the `400` of a missing cart, and
the answer for a cart with an offending line is that of the first offending line in
input order: a `500` when its `product_id` is no UUID text, the `400` `productNotFound`
when its `product_id` is UUID text that selects no product, the `400` `insufficientStock`
when its product has less stock than the quantity. A `400` is answered in these cases
only. -/
theorem place_rejects_cart_exactly (now : Nat) (fault : Option Nat) (s : Store)
    (req : PlaceRequest) :
    (fault = none → req.shipping_address ≠ none → req.phone ≠ none →
      ((place now fault s req).2.isCreated = false ↔
        (req.items = none ∨ req.items = some [] ∨
          ∃ items, req.items = some items ∧
            ∃ item ∈ items, unresolved s item = true ∨ exceedsStock s item = true))) ∧
    ((∃ e, (place now fault s req).2 = .badRequest e) ↔
      (req.items = none ∨ req.items = some [] ∨
        ∃ pre item post, req.items = some (pre ++ item :: post) ∧
          (∀ i ∈ pre, unresolved s i = false ∧ exceedsStock s i = false) ∧
          malformedId item = false ∧
          (unresolved s item = true ∨ exceedsStock s item = true))) ∧
    ((req.items = none ∨ req.items = some []) →
      place now fault s req = (s, .badRequest .itemsRequired)) ∧
    (∀ pre item post, req.items = some (pre ++ item :: post) →
      (∀ i ∈ pre, unresolved s i = false ∧ exceedsStock s i = false) →
      (malformedId item = true → place now fault s req = (s, .serverError)) ∧
      (∀ id, item.product_id = IdText.uuid id → unresolved s item = true →
        place now fault s req = (s, .badRequest (.productNotFound id))) ∧
      (∀ id, item.product_id = IdText.uuid id → unresolved s item = false →
        exceedsStock s item = true →
        place now fault s req = (s, .badRequest (.insufficientStock id)))) ∧
    (∀ items, req.items = some items → items ≠ [] →
      (∀ i ∈ items, unresolved s i = false ∧ exceedsStock s i = false) →
      fault = none → req.shipping_address ≠ none → req.phone ≠ none →
      ∃ order, (place now fault s req).2 = .created order) := by
  have hclean : ∀ items, req.items = some items → items ≠ [] →
      (∀ i ∈ items, unresolved s i = false ∧ exceedsStock s i = false) →
      fault = none → req.shipping_address ≠ none → req.phone ≠ none →
      ∃ order, (place now fault s req).2 = .created order := by
    intro items hit hne hall hfault ha hp
    have hv := findSome_none_of_resolved s items hall
    rw [place_valid now fault s req items hit hne hv]
    obtain ⟨a, ha'⟩ := Option.ne_none_iff_exists'.mp ha
    obtain ⟨p, hp'⟩ := Option.ne_none_iff_exists'.mp hp
    rw [commitOrder_eq now fault s req items _ a p ha' hp' (fun i hi => (hall i hi).1), hfault]
    exact ⟨_, rfl⟩
  have hline : ∀ pre item post, req.items = some (pre ++ item :: post) →
      (∀ i ∈ pre, unresolved s i = false ∧ exceedsStock s i = false) →
      (malformedId item = true → place now fault s req = (s, .serverError)) ∧
      (∀ id, item.product_id = IdText.uuid id → unresolved s item = true →
        place now fault s req = (s, .badRequest (.productNotFound id))) ∧
      (∀ id, item.product_id = IdText.uuid id → unresolved s item = false →
        exceedsStock s item = true →
        place now fault s req = (s, .badRequest (.insufficientStock id))) := by
    intro pre item post hit hpre
    have hfo := firstOffence_split s pre post item hpre
    rw [← hit] at hfo
    refine ⟨?_, ?_, ?_⟩
    · intro hm
      apply place_invalid
      rw [hfo]
      have : item.product_id = IdText.malformed := by simpa [malformedId] using hm
      simp [itemError, this]
    · intro id hid hu
      apply place_invalid
      rw [hfo]
      simp [itemError, hid, hu]
    · intro id hid hu he
      apply place_invalid
      rw [hfo]
      simp [itemError, hid, hu, he]
  refine ⟨?_, ⟨?_, ?_⟩, ?_, hline, hclean⟩
  · intro hfault ha hp
    rw [← firstOffence_some_iff]
    cases hfo : firstOffence s req.items with
    | some r =>
      rw [place_invalid now fault s req r hfo]
      simp [firstOffence_not_created s req.items r hfo]
    | none =>
      obtain ⟨items, hit, hne, hv⟩ := firstOffence_none s req.items hfo
      obtain ⟨order, ho⟩ := hclean items hit hne (findSome_none_resolved s items hv) hfault ha hp
      rw [ho]
      simp [Response.isCreated]
  · rintro ⟨e, he⟩
    match hit : req.items with
    | none => exact Or.inl rfl
    | some [] => exact Or.inr (Or.inl rfl)
    | some (item :: rest) =>
      right; right
      cases hv : (item :: rest).findSome? (itemError s) with
      | none =>
        rw [place_valid now fault s req (item :: rest) hit (by simp) hv] at he
        exact absurd he (commitOrder_not_badRequest now fault s req _ _ e)
      | some r =>
        obtain ⟨pre, x, post, hsplit, hx, hpre⟩ : ∃ pre x post,
            item :: rest = pre ++ x :: post ∧ itemError s x = some r ∧
            ∀ i ∈ pre, itemError s i = none := by
          clear he hit
          generalize item :: rest = l at hv
          induction l with
          | nil => simp at hv
          | cons y ys ih =>
            rw [List.findSome?_cons] at hv
            cases hy : itemError s y with
            | some r' =>
              rw [hy] at hv
              exact ⟨[], y, ys, rfl, by rw [hy, ← hv], by simp⟩
            | none =>
              rw [hy] at hv
              obtain ⟨pre, x, post, h1, h2, h3⟩ := ih hv
              refine ⟨y :: pre, x, post, by rw [h1]; rfl, h2, ?_⟩
              intro i hi
              rcases List.mem_cons.mp hi with h | h
              · rw [h]; exact hy
              · exact h3 i h
        have hpre' : ∀ i ∈ pre, unresolved s i = false ∧ exceedsStock s i = false := by
          intro i hi
          have h0 := hpre i hi
          have h1 := itemError_isSome s i
          rw [h0] at h1
          simp at h1
          exact h1
        have hx1 := itemError_isSome s x
        rw [hx] at hx1
        refine ⟨pre, x, post, hsplit ▸ rfl, hpre', ?_, ?_⟩
        · cases hm : malformedId x with
          | false => rfl
          | true =>
            have := (hline pre x post (by rw [hit, hsplit]) hpre').1 hm
            rw [this] at he
            cases he
        · simp at hx1
          by_cases hu : unresolved s x = true
          · exact Or.inl hu
          · simp at hu
            rw [hu] at hx1
            simp at hx1
            exact Or.inr hx1
  · rintro (hnone | hnil | ⟨pre, item, post, hit, hpre, hm, hoff⟩)
    · exact ⟨.itemsRequired, by simp [place, hnone]⟩
    · exact ⟨.itemsRequired, by simp [place, hnil]⟩
    · have hid : ∃ id, item.product_id = IdText.uuid id := by
        cases hid : item.product_id with
        | malformed => simp [malformedId, hid] at hm
        | uuid id => exact ⟨id, rfl⟩
      obtain ⟨id, hid⟩ := hid
      have hl := hline pre item post hit hpre
      by_cases hu : unresolved s item = true
      · exact ⟨_, by rw [hl.2.1 id hid hu]⟩
      · simp at hu
        rcases hoff with h | h
        · rw [hu] at h; cases h
        · exact ⟨_, by rw [hl.2.2 id hid hu h]⟩
  · rintro (hnone | hnil)
    · simp [place, hnone]
    · simp [place, hnil]

/-- C1, witness: in the demo store a line for the unknown product 9 is answered with
`productNotFound`, a line with a `product_id` that is no UUID text with a `500`, also
after a line in order. -/
theorem place_rejects_cart_exactly_witness :
    place 5 none demoStore (demoRequest [⟨1, 1⟩, ⟨9, 1⟩, ⟨.malformed, 1⟩] none) =
      (demoStore, .badRequest (.productNotFound 9)) ∧
    place 5 none demoStore (demoRequest [⟨1, 1⟩, ⟨.malformed, 1⟩, ⟨9, 1⟩] none) =
      (demoStore, .serverError) :=
  ⟨((place_rejects_cart_exactly 5 none demoStore
      (demoRequest [⟨1, 1⟩, ⟨9, 1⟩, ⟨.malformed, 1⟩] none)).2.2.2.1
      [⟨1, 1⟩] ⟨9, 1⟩ [⟨.malformed, 1⟩] rfl (by decide)).2.1 9 rfl (by decide),
   ((place_rejects_cart_exactly 5 none demoStore
      (demoRequest [⟨1, 1⟩, ⟨.malformed, 1⟩, ⟨9, 1⟩] none)).2.2.2.1
      [⟨1, 1⟩] ⟨.malformed, 1⟩ [⟨9, 1⟩] rfl (by decide)).1 (by decide)⟩

theorem firstOffence_cases (s : Store) (cart : Option (List Item)) (r : Response)
    (h : firstOffence s cart = some r) :
    (∃ e, r = .badRequest e) ∨
      (r = .serverError ∧ ∃ items, cart = some items ∧ ∃ i ∈ items, malformedId i = true) := by
  unfold firstOffence at h
  match cart, h with
  | none, h => exact Or.inl ⟨_, (Option.some.inj h).symm⟩
  | some [], h => exact Or.inl ⟨_, (Option.some.inj h).symm⟩
  | some (item :: rest), h =>
    obtain ⟨i, hmem, hi⟩ := List.exists_of_findSome?_eq_some h
    unfold itemError at hi
    cases hid : i.product_id with
    | malformed =>
      simp only [hid, Option.some.injEq] at hi
      exact Or.inr ⟨hi.symm, _, rfl, i, hmem, by simp [malformedId, hid]⟩
    | uuid id =>
      simp only [hid] at hi
      split at hi
      · exact Or.inl ⟨_, (Option.some.inj hi).symm⟩
      · split at hi
        · exact Or.inl ⟨_, (Option.some.inj hi).symm⟩
        · simp at hi

/-- C2: when some line of the cart, in any position, is unresolved or asks for more
than the stock of its product, the placement fails and the store after the call is the
store before it: no order row, no order item row, no stock changes. The answer is a
`400`, or the `500` of a `product_id` that is no UUID text; it is a `400` whenever
every `product_id` of the cart is UUID text. -/
theorem place_rejected_store_unchanged (now : Nat) (fault : Option Nat) (s : Store)
    (req : PlaceRequest) (items : List Item) (hit : req.items = some items)
    (hoff : ∃ item ∈ items, unresolved s item = true ∨ exceedsStock s item = true) :
    (place now fault s req).1 = s ∧
    ((∃ e, (place now fault s req).2 = .badRequest e) ∨
      (place now fault s req).2 = .serverError) ∧
    ((∀ i ∈ items, malformedId i = false) →
      ∃ e, (place now fault s req).2 = .badRequest e) := by
  cases hfo : firstOffence s req.items with
  | some r =>
    rw [place_invalid now fault s req r hfo]
    rcases firstOffence_cases s req.items r hfo with ⟨e, he⟩ | ⟨he, items', hit', i, hi, hm⟩
    · exact ⟨rfl, Or.inl ⟨e, he⟩, fun _ => ⟨e, he⟩⟩
    · refine ⟨rfl, Or.inr he, fun hall => ?_⟩
      rw [hit] at hit'
      cases hit'
      rw [hall i hi] at hm
      cases hm
  | none =>
    obtain ⟨items', hit', _, hv⟩ := firstOffence_none s req.items hfo
    rw [hit] at hit'
    cases hit'
    obtain ⟨item, hi, h⟩ := hoff
    have := findSome_none_resolved s items hv item hi
    rcases h with h | h
    · rw [this.1] at h; cases h
    · rw [this.2] at h; cases h

/-- C2, witness: a line that exceeds the stock after a line in order leaves the demo
store as it was, with a `400`. -/
theorem place_rejected_store_unchanged_witness :
    (place 5 none demoStore (demoRequest [⟨2, 1⟩, ⟨1, 3⟩] none)).1 = demoStore ∧
    ((∃ e, (place 5 none demoStore (demoRequest [⟨2, 1⟩, ⟨1, 3⟩] none)).2 = .badRequest e) ∨
      (place 5 none demoStore (demoRequest [⟨2, 1⟩, ⟨1, 3⟩] none)).2 = .serverError) ∧
    ((∀ i ∈ [(⟨2, 1⟩ : Item), ⟨1, 3⟩], malformedId i = false) →
      ∃ e, (place 5 none demoStore (demoRequest [⟨2, 1⟩, ⟨1, 3⟩] none)).2 = .badRequest e) :=
  place_rejected_store_unchanged 5 none demoStore (demoRequest [⟨2, 1⟩, ⟨1, 3⟩] none)
    [⟨2, 1⟩, ⟨1, 3⟩] rfl ⟨⟨1, 3⟩, by simp, Or.inr (by decide)⟩

/-- C3, counterexample: with the first line insert failing (write 1) for a cart
that passes validation, the handler answers `500` and the store keeps the order row,
without any item row and with the stock as it was. -/
theorem place_write_failure_leaves_order :
    firstOffence demoStore (demoRequest [⟨1, 1⟩] none).items = none ∧
    (place 5 (some 1) demoStore (demoRequest [⟨1, 1⟩] none)).2 = .serverError ∧
    (place 5 (some 1) demoStore (demoRequest [⟨1, 1⟩] none)).1 ≠ demoStore ∧
    (place 5 (some 1) demoStore (demoRequest [⟨1, 1⟩] none)).1.orders.length = 1 ∧
    (place 5 (some 1) demoStore (demoRequest [⟨1, 1⟩] none)).1.order_items = [] ∧
    (place 5 (some 1) demoStore (demoRequest [⟨1, 1⟩] none)).1.products = demoStore.products := by
  decide
/-- C3, amended: for a cart that passes validation and a body with both shipping
fields, a failure of write `k` makes the handler answer `500`; the store is the store
before the call only when the failing write is the order insert (`k = 0`), and for a
later write it holds the order row and every line write issued before the failing one
(nothing is rolled back). -/
theorem place_write_failure_keeps_earlier_writes (now : Nat) (s : Store) (req : PlaceRequest)
    (items : List Item) (a p : String) (k : Nat)
    (hit : req.items = some items) (hne : items ≠ [])
    (hall : ∀ i ∈ items, unresolved s i = false ∧ exceedsStock s i = false)
    (ha : req.shipping_address = some a) (hp : req.phone = some p)
    (hk : k ≤ 2 * items.length) :
    (place now (some k) s req).2 = .serverError ∧
    (k = 0 → (place now (some k) s req).1 = s) ∧
    (0 < k →
      (place now (some k) s req).1 =
        storeAfterWrites
          (insertOrder s (newOrder s now req a p
            (applyCoupon s now req.coupon_code (subtotal s items)).1
            (applyCoupon s now req.coupon_code (subtotal s items)).2))
          s.nextId items (k - 1) ∧
      (place now (some k) s req).1.orders =
        s.orders ++ [newOrder s now req a p
          (applyCoupon s now req.coupon_code (subtotal s items)).1
          (applyCoupon s now req.coupon_code (subtotal s items)).2]) := by
  have hv := findSome_none_of_resolved s items hall
  rw [place_valid now (some k) s req items hit hne hv,
    commitOrder_eq now (some k) s req items _ a p ha hp (fun i hi => (hall i hi).1)]
  unfold commitOutcome
  match k, hk with
  | 0, _ => simp
  | d + 1, hk =>
    have hd : d < 2 * items.length := by omega
    simp only [hd, if_true, Nat.succ_pos, true_implies, Nat.add_sub_cancel, Nat.succ_ne_zero,
      false_implies, true_and]
    refine ⟨rfl, ?_⟩
    rw [storeAfterWrites_orders]
    rfl
/-- C3, witness: the demo cart of one line with the
stock update of that line failing (write 2). -/
theorem place_write_failure_keeps_earlier_writes_witness :
    (place 5 (some 2) demoStore (demoRequest [⟨1, 1⟩] none)).2 = .serverError ∧
    (2 = 0 → (place 5 (some 2) demoStore (demoRequest [⟨1, 1⟩] none)).1 = demoStore) ∧
    (0 < 2 →
      (place 5 (some 2) demoStore (demoRequest [⟨1, 1⟩] none)).1 =
        storeAfterWrites
          (insertOrder demoStore (newOrder demoStore 5 (demoRequest [⟨1, 1⟩] none) "Main St" "255"
            (applyCoupon demoStore 5 (demoRequest [⟨1, 1⟩] none).coupon_code
              (subtotal demoStore [⟨1, 1⟩])).1
            (applyCoupon demoStore 5 (demoRequest [⟨1, 1⟩] none).coupon_code
              (subtotal demoStore [⟨1, 1⟩])).2))
          demoStore.nextId [⟨1, 1⟩] (2 - 1) ∧
      (place 5 (some 2) demoStore (demoRequest [⟨1, 1⟩] none)).1.orders =
        demoStore.orders ++ [newOrder demoStore 5 (demoRequest [⟨1, 1⟩] none) "Main St" "255"
          (applyCoupon demoStore 5 (demoRequest [⟨1, 1⟩] none).coupon_code
            (subtotal demoStore [⟨1, 1⟩])).1
          (applyCoupon demoStore 5 (demoRequest [⟨1, 1⟩] none).coupon_code
            (subtotal demoStore [⟨1, 1⟩])).2]) :=
  place_write_failure_keeps_earlier_writes 5 demoStore (demoRequest [⟨1, 1⟩] none) [⟨1, 1⟩] "Main St" "255" 2
    rfl (by decide) (by decide) rfl rfl (by decide)

theorem roundCents_twoDecimals (q : ℚ) (h : TwoDecimals q) : roundCents q = q := by
  obtain ⟨n, rfl⟩ := h
  unfold roundCents
  have h1 : ⌊((n : ℚ) / 100) * 100 + 1 / 2⌋ = n := by
    rw [Int.floor_eq_iff]
    constructor <;> norm_num
  have h2 : ⌊-((n : ℚ) / 100) * 100 + 1 / 2⌋ = -n := by
    rw [Int.floor_eq_iff]
    constructor <;> norm_num
  split
  · rw [h1]
  · rw [h2]
    push_cast
    ring

theorem roundCents_zero : roundCents 0 = 0 :=
  roundCents_twoDecimals 0 ⟨0, by norm_num⟩

theorem roundCents_nonneg (q : ℚ) (h : 0 ≤ q) : 0 ≤ roundCents q := by
  unfold roundCents
  rw [if_pos h]
  apply div_nonneg _ (by norm_num)
  exact_mod_cast Int.floor_nonneg.mpr (by positivity)

theorem roundCents_nonpos (q : ℚ) (h : q < 0) : roundCents q ≤ 0 := by
  unfold roundCents
  rw [if_neg (not_le.mpr h)]
  apply neg_nonpos.mpr
  apply div_nonneg _ (by norm_num)
  have : (0 : ℚ) ≤ -q * 100 + 1 / 2 := by nlinarith
  exact_mod_cast Int.floor_nonneg.mpr this

theorem roundCents_mono (a b : ℚ) (h : a ≤ b) : roundCents a ≤ roundCents b := by
  by_cases ha : 0 ≤ a
  · have hb : 0 ≤ b := le_trans ha h
    unfold roundCents
    rw [if_pos ha, if_pos hb]
    apply div_le_div_of_nonneg_right _ (by norm_num)
    exact_mod_cast Int.floor_mono (by linarith)
  · have ha' : a < 0 := not_le.mp ha
    by_cases hb : 0 ≤ b
    · exact le_trans (roundCents_nonpos a ha') (roundCents_nonneg b hb)
    · unfold roundCents
      rw [if_neg ha, if_neg hb]
      apply neg_le_neg
      apply div_le_div_of_nonneg_right _ (by norm_num)
      exact_mod_cast Int.floor_mono (by linarith)

theorem roundCents_close (q : ℚ) : |roundCents q - q| ≤ 1 / 200 := by
  unfold roundCents
  split
  · have h1 := Int.floor_le (q * 100 + 1 / 2)
    have h2 := Int.lt_floor_add_one (q * 100 + 1 / 2)
    rw [abs_le]
    constructor <;> linarith
  · have h1 := Int.floor_le (-q * 100 + 1 / 2)
    have h2 := Int.lt_floor_add_one (-q * 100 + 1 / 2)
    rw [abs_le]
    constructor <;> linarith

theorem twoDecimals_roundCents (q : ℚ) : TwoDecimals (roundCents q) := by
  unfold roundCents
  split
  · exact ⟨_, rfl⟩
  · exact ⟨-⌊-q * 100 + 1 / 2⌋, by push_cast; ring⟩

theorem twoDecimals_lineAmount (s : Store) (item : Item) : TwoDecimals (lineAmount s item) := by
  unfold lineAmount
  cases productOf s item with
  | none => exact ⟨0, by norm_num⟩
  | some product =>
    exact ⟨(unitPrice product).cents * item.quantity, by
      simp only [Decimal2.toNumber]
      push_cast
      ring⟩

theorem twoDecimals_subtotal (s : Store) (items : List Item) : TwoDecimals (subtotal s items) := by
  unfold subtotal
  induction items with
  | nil => exact ⟨0, by norm_num⟩
  | cons item rest ih =>
    obtain ⟨a, ha⟩ := twoDecimals_lineAmount s item
    obtain ⟨b, hb⟩ := ih
    exact ⟨a + b, by
      simp only [List.map_cons, List.sum_cons, ha, hb]
      push_cast
      ring⟩

theorem roundCents_subtotal (s : Store) (items : List Item) :
    roundCents (subtotal s items) = subtotal s items :=
  roundCents_twoDecimals _ (twoDecimals_subtotal s items)

theorem unitPrice_eq (product : Product) :
    unitPrice product = (product.discount_price.getD product.price) := by
  unfold unitPrice jsOr
  cases product.discount_price <;> simp [Decimal2.truthy]

theorem unitPrice_toNumber (product : Product) :
    (unitPrice product).toNumber = effectivePrice product := by
  rw [unitPrice_eq]
  unfold effectivePrice
  cases product.discount_price <;> rfl

theorem linePrice_eq (s : Store) (item : Item) : linePrice s item = effectiveLinePrice s item := by
  unfold linePrice effectiveLinePrice
  cases productOf s item with
  | none => rfl
  | some product => exact unitPrice_toNumber product

theorem lineAmount_eq (s : Store) (item : Item) :
    lineAmount s item = effectiveLinePrice s item * item.quantity := by
  unfold lineAmount effectiveLinePrice
  cases productOf s item with
  | none => simp
  | some product => simp [unitPrice_toNumber]

theorem subtotal_eq (s : Store) (items : List Item) :
    subtotal s items = (items.map (fun i => effectiveLinePrice s i * i.quantity)).sum := by
  unfold subtotal
  congr 1
  apply List.map_congr_left
  intro i _
  exact lineAmount_eq s i

theorem itemRows_price (s : Store) (order_id : Nat) (items : List Item) (n : Nat) :
    (itemRows s order_id items n).map (fun r => r.price) = items.map (linePrice s) := by
  induction items generalizing n with
  | nil => rfl
  | cons item rest ih => simp [itemRows, ih]

theorem finalStore_insertOrder (s : Store) (order : Order) (order_id : Nat) (items : List Item) :
    finalStore (insertOrder s order) order_id items =
      { products := s.products.map (fun p => { p with stock := p.stock - qtySum items p.id })
        coupons := s.coupons
        orders := s.orders ++ [order]
        order_items := s.order_items ++ itemRows s order_id items (s.nextId + 1)
        nextId := s.nextId + 1 + items.length } := by
  have := itemRows_congr s (insertOrder s order) order_id items (s.nextId + 1) (fun _ => rfl)
  unfold finalStore
  have hn : (insertOrder s order).nextId = s.nextId + 1 := rfl
  rw [hn, this]
  rfl

theorem applyCoupon_fst (s : Store) (now : Nat) (coupon_code : Option String) (total : ℚ) :
    (applyCoupon s now coupon_code total).1 = total - (applyCoupon s now coupon_code total).2 := by
  unfold applyCoupon
  split
  · split
    · simp
    · split <;> simp
  · simp

theorem applyCoupon_no_code (s : Store) (now : Nat) (coupon_code : Option String) (total : ℚ)
    (h : strTruthy coupon_code = false) : applyCoupon s now coupon_code total = (total, 0) := by
  simp [applyCoupon, h]

/-- C4: the unit price the handler uses is `coalesce(discount_price, price)`: the
discount price `d` whenever it is not null, whatever its value (a price arrives as
decimal text, which is truthy also for `0.00`), and the list price otherwise. Every
successful placement uses this one price for the subtotal it computes, from which the
stored amounts derive, and for the price recorded in each order item. -/
theorem place_uses_effective_price (now : Nat) (fault : Option Nat) (s s' : Store)
    (req : PlaceRequest) (order : Order)
    (h : place now fault s req = (s', .created order)) :
    (∀ product : Product, (unitPrice product).toNumber = effectivePrice product) ∧
    (∀ (product : Product) (d : Decimal2), product.discount_price = some d →
      unitPrice product = d) ∧
    (∀ product : Product, product.discount_price = none → unitPrice product = product.price) ∧
    ∃ items, req.items = some items ∧
      priceItems s items 0 =
        .ok (items.map (fun i => effectiveLinePrice s i * i.quantity)).sum ∧
      order.total_amount = roundCents (applyCoupon s now req.coupon_code
        (items.map (fun i => effectiveLinePrice s i * i.quantity)).sum).1 ∧
      order.discount_amount = roundCents (applyCoupon s now req.coupon_code
        (items.map (fun i => effectiveLinePrice s i * i.quantity)).sum).2 ∧
      (s'.order_items.drop s.order_items.length).map (fun r => r.price) =
        items.map (effectiveLinePrice s) := by
  refine ⟨unitPrice_toNumber, ?_, ?_, ?_⟩
  · intro product d hd
    rw [unitPrice_eq, hd]
    rfl
  · intro product hd
    rw [unitPrice_eq, hd]
    rfl
  obtain ⟨items, a, p, hit, _, hall, _, _, ho, hs⟩ := place_created now fault s s' req order h
  refine ⟨items, hit, ?_, ?_, ?_, ?_⟩
  · rw [priceItems_eq, findSome_none_of_resolved s items hall, ← subtotal_eq]
    simp
  · rw [ho, ← subtotal_eq]
    rfl
  · rw [ho, ← subtotal_eq]
    rfl
  · rw [hs, finalStore_insertOrder]
    simp only [List.drop_left, itemRows_price]
    apply List.map_congr_left
    intro i _
    exact linePrice_eq s i

/-- C4, witness: product 2 of the catalogue in cents has list price 50.00 and
discount price 0.00; one unit of it is priced and recorded at 0. -/
theorem place_uses_effective_price_witness :
    (selectProduct demoStoreCents 2).map (fun p => (p.price, p.discount_price)) =
      [(⟨5000⟩, some ⟨0⟩)] ∧
    (place 5 none demoStoreCents (demoRequest [⟨2, 1⟩] none)).2 =
      .created (newOrder demoStoreCents 5 (demoRequest [⟨2, 1⟩] none) "Main St" "255" 0 0) ∧
    (newOrder demoStoreCents 5 (demoRequest [⟨2, 1⟩] none) "Main St" "255" 0 0).total_amount = 0 ∧
    ((place 5 none demoStoreCents (demoRequest [⟨2, 1⟩] none)).1.order_items.drop
        demoStoreCents.order_items.length).map (fun r => r.price) = [0] := by
  have hp : place 5 none demoStoreCents (demoRequest [⟨2, 1⟩] none) =
      ((place 5 none demoStoreCents (demoRequest [⟨2, 1⟩] none)).1,
        .created (newOrder demoStoreCents 5 (demoRequest [⟨2, 1⟩] none) "Main St" "255" 0 0)) := by
    simp [place, demoStoreCents, demoRequest, priceItems, selectProduct, commitOrder, applyCoupon,
      strTruthy, writeItems, insertOrder, insertOrderItem, updateStock, newOrder, unitPrice, jsOr,
      Decimal2.toNumber, Decimal2.truthy, IdText.rowId]
  obtain ⟨_, _, _, items, hit, _, htot, _, hrows⟩ :=
    place_uses_effective_price 5 none demoStoreCents _ (demoRequest [⟨2, 1⟩] none) _ hp
  cases hit
  refine ⟨by decide, by rw [hp], ?_, ?_⟩
  · rw [htot]
    simp [applyCoupon, demoRequest, strTruthy, effectiveLinePrice, productOf, selectProduct,
      demoStoreCents, effectivePrice, Decimal2.toNumber, roundCents_zero]
  · rw [hrows]
    simp [effectiveLinePrice, productOf, selectProduct, demoStoreCents, effectivePrice,
      Decimal2.toNumber]

/-- C5, counterexample: one unit of a product priced 10.05 with a coupon of 50 percent.
The subtotal is 10.05; the handler computes the discount 5.025 and the total 5.025, and
the two `DECIMAL(10,2)` columns store 5.03 each, so that the stored total is not the
subtotal less the stored discount. -/
theorem place_total_rounded_apart_from_discount :
    subtotal demoStoreCents [⟨1, 1⟩] = 1005 / 100 ∧
    (place 5 none demoStoreCents (demoRequest [⟨1, 1⟩] (some "HALF"))).2.isCreated = true ∧
    (place 5 none demoStoreCents (demoRequest [⟨1, 1⟩] (some "HALF"))).1.orders.map
      (fun o => (o.total_amount, o.discount_amount)) = [(503 / 100, 503 / 100)] ∧
    ∀ o ∈ (place 5 none demoStoreCents (demoRequest [⟨1, 1⟩] (some "HALF"))).1.orders,
      o.total_amount ≠ subtotal demoStoreCents [⟨1, 1⟩] - o.discount_amount := by
  have hsub : subtotal demoStoreCents [⟨1, 1⟩] = 1005 / 100 := by
    simp [subtotal, lineAmount, productOf, selectProduct, demoStoreCents, unitPrice, jsOr,
      Decimal2.toNumber]
  have hr : roundCents (201 / 40) = 503 / 100 := by
    unfold roundCents
    norm_num [Int.floor_eq_iff]
  have hp : (place 5 none demoStoreCents (demoRequest [⟨1, 1⟩] (some "HALF"))).1.orders.map
      (fun o => (o.total_amount, o.discount_amount)) = [(503 / 100, 503 / 100)] := by
    simp [place, demoStoreCents, demoRequest, priceItems, selectProduct, commitOrder, applyCoupon,
      strTruthy, writeItems, insertOrder, insertOrderItem, updateStock, newOrder, unitPrice, jsOr,
      Decimal2.toNumber, Decimal2.truthy, IdText.rowId, selectCoupon, demoCouponHalf, discountOf,
      intTruthy, toNumber?]
    norm_num [hr]
  refine ⟨hsub, by decide, hp, ?_⟩
  intro o ho
  have hm : (o.total_amount, o.discount_amount) ∈
      (place 5 none demoStoreCents (demoRequest [⟨1, 1⟩] (some "HALF"))).1.orders.map
        (fun o => (o.total_amount, o.discount_amount)) := List.mem_map.mpr ⟨o, ho, rfl⟩
  rw [hp] at hm
  simp only [List.mem_singleton, Prod.mk.injEq] at hm
  rw [hsub, hm.1, hm.2]
  norm_num

/-- C5, amended: for every successful placement the order row that is stored has
`discount_amount` and `total_amount` equal to the discount `d` and to the difference
`subtotal - d` the handler computed, each rounded on its own to two decimals; the
subtotal is the sum over the cart lines, in input order, of unit price times quantity.
The stored total is within one cent of the subtotal less the stored discount, and equal
to it when `d` has at most two decimals; without a coupon code (absent or empty) the
discount is 0 and the total is the subtotal; the difference is stored whatever its
sign. -/
theorem place_total_is_subtotal_minus_discount (now : Nat) (fault : Option Nat) (s s' : Store)
    (req : PlaceRequest) (order : Order)
    (h : place now fault s req = (s', .created order)) :
    ∃ items, req.items = some items ∧
      s'.orders = s.orders ++ [order] ∧
      order.discount_amount =
        roundCents (applyCoupon s now req.coupon_code (subtotal s items)).2 ∧
      order.total_amount =
        roundCents (subtotal s items - (applyCoupon s now req.coupon_code (subtotal s items)).2) ∧
      |order.total_amount - (subtotal s items - order.discount_amount)| ≤ 1 / 100 ∧
      (TwoDecimals (applyCoupon s now req.coupon_code (subtotal s items)).2 →
        order.total_amount = subtotal s items - order.discount_amount) ∧
      (strTruthy req.coupon_code = false →
        order.discount_amount = 0 ∧ order.total_amount = subtotal s items) := by
  obtain ⟨items, a, p, hit, _, _, _, _, ho, hs⟩ := place_created now fault s s' req order h
  have h1 : order.total_amount =
      roundCents (applyCoupon s now req.coupon_code (subtotal s items)).1 := by
    rw [ho]; rfl
  have h2 : order.discount_amount =
      roundCents (applyCoupon s now req.coupon_code (subtotal s items)).2 := by
    rw [ho]; rfl
  rw [applyCoupon_fst] at h1
  refine ⟨items, hit, ?_, h2, h1, ?_, ?_, ?_⟩
  · rw [hs, finalStore_insertOrder]
  · generalize (applyCoupon s now req.coupon_code (subtotal s items)).2 = d at h1 h2
    have c1 := roundCents_close (subtotal s items - d)
    have c2 := roundCents_close d
    rw [h1, h2]
    rw [abs_le] at c1 c2 ⊢
    constructor <;> linarith [c1.1, c1.2, c2.1, c2.2]
  · intro hd
    generalize (applyCoupon s now req.coupon_code (subtotal s items)).2 = d at h1 h2 hd
    obtain ⟨n, hn⟩ := twoDecimals_subtotal s items
    obtain ⟨m, hm⟩ := hd
    have hsub : TwoDecimals (subtotal s items - d) :=
      ⟨n - m, by rw [hn, hm]; push_cast; ring⟩
    rw [h1, h2, roundCents_twoDecimals _ hsub, roundCents_twoDecimals _ ⟨m, hm⟩]
  · intro hc
    rw [h1, h2, applyCoupon_no_code s now req.coupon_code _ hc]
    simp only [sub_zero, roundCents_zero, roundCents_subtotal, and_self]

/-- C5, witness: a line of quantity `-1` passes the stock test and the order is stored
with the negative total `-100`. -/
theorem place_total_is_subtotal_minus_discount_witness :
    (place 5 none demoStore (demoRequest [⟨1, -1⟩] none)).2.isCreated = true ∧
    (place 5 none demoStore (demoRequest [⟨1, -1⟩] none)).1.orders.map
      (fun o => (o.total_amount, o.discount_amount)) = [(-100, 0)] := by
  have hp : place 5 none demoStore (demoRequest [⟨1, -1⟩] none) =
      ((place 5 none demoStore (demoRequest [⟨1, -1⟩] none)).1,
        .created (newOrder demoStore 5 (demoRequest [⟨1, -1⟩] none) "Main St" "255"
          (applyCoupon demoStore 5 none (subtotal demoStore [⟨1, -1⟩])).1
          (applyCoupon demoStore 5 none (subtotal demoStore [⟨1, -1⟩])).2)) := by
    simp [place, demoStore, demoRequest, priceItems, selectProduct, commitOrder, applyCoupon,
      strTruthy, writeItems, insertOrder, insertOrderItem, updateStock, newOrder, unitPrice, jsOr,
      Decimal2.toNumber, Decimal2.truthy, IdText.rowId, subtotal, lineAmount, productOf]
  obtain ⟨items, hit, hord, _, _, _, _, hno⟩ :=
    place_total_is_subtotal_minus_discount 5 none demoStore _ (demoRequest [⟨1, -1⟩] none) _ hp
  cases hit
  have hsub : subtotal demoStore [⟨1, -1⟩] = -100 := by
    simp [subtotal, lineAmount, productOf, selectProduct, demoStore, unitPrice, jsOr,
      Decimal2.toNumber]
    norm_num
  refine ⟨by decide, ?_⟩
  rw [hord]
  have hd := (hno rfl).1
  have ht := (hno rfl).2
  have he : demoStore.orders = [] := rfl
  rw [he]
  simp only [List.nil_append, List.map_cons, List.map_nil]
  rw [hd, ht, hsub]

/-- C6 on the demo store: the coupon `SAVE10` has `max_uses = 1` and `used_count = 1`;
`POST /coupons/validate` refuses it, while the placement of a cart of subtotal 100 with
that code stores an order with `discount_amount = 10` and `total_amount = 90`. -/
theorem place_ignores_usage_cap :
    (selectCoupon demoStore 5 "SAVE10").map (fun c => (c.max_uses, c.used_count)) =
      [(some 1, some 1)] ∧
    validate demoStore 5 "SAVE10" 100 = .maxUsesReached ∧
    (place 5 none demoStore (demoRequest [⟨1, 1⟩] (some "SAVE10"))).1.orders.map
      (fun o => (o.discount_amount, o.total_amount)) = [(10, 90)] := by
  have h10 : roundCents 10 = 10 := roundCents_twoDecimals _ ⟨1000, by norm_num⟩
  have h90 : roundCents 90 = 90 := roundCents_twoDecimals _ ⟨9000, by norm_num⟩
  refine ⟨by decide, ?_, ?_⟩
  · simp [validate, selectCoupon, demoStore, demoCouponSave, demoCouponBig, toNumber?,
      JsNum.toNumber, intTruthy]
  · simp [place, demoStore, demoCouponSave, demoCouponBig, demoRequest, priceItems,
      selectProduct, commitOrder, applyCoupon, strTruthy, writeItems, insertOrder,
      insertOrderItem, updateStock, newOrder, selectCoupon, discountOf, intTruthy, toNumber?,
      unitPrice, jsOr, JsNum.toNumber, Decimal2.toNumber, Decimal2.truthy, IdText.rowId]
    norm_num [h10, h90]
theorem applyCoupon_ignored (s : Store) (now : Nat) (coupon_code : Option String) (total : ℚ)
    (h : ∀ code, coupon_code = some code → selectCoupon s now code = [] ∨
      ∃ coupon tl, selectCoupon s now code = coupon :: tl ∧
        total < toNumber? coupon.min_purchase_amount) :
    applyCoupon s now coupon_code total = (total, 0) := by
  unfold applyCoupon
  split
  · cases hc : coupon_code with
    | none => simp [strTruthy, hc] at *
    | some code =>
      rcases h code hc with h0 | ⟨coupon, tl, hsel, hlt⟩
      · simp [h0]
      · simp [hsel, not_le.mpr hlt]
  · rfl

/-- C7: when the coupon found for the code of the request has a minimum purchase
above the subtotal of the cart, or when the code matches no active, unexpired coupon,
a placement that succeeds without the code succeeds with it, with `discount_amount = 0`
and `total_amount` equal to the subtotal: the same order apart from the code it
records, and the same store apart from that order row. -/
theorem place_ignores_inapplicable_coupon (now : Nat) (fault : Option Nat) (s s0 : Store)
    (req : PlaceRequest) (items : List Item) (code : String) (order0 : Order)
    (hit : req.items = some items) (hcode : req.coupon_code = some code)
    (hcoupon : selectCoupon s now code = [] ∨
      ∃ coupon tl, selectCoupon s now code = coupon :: tl ∧
        subtotal s items < toNumber? coupon.min_purchase_amount)
    (hplain : place now fault s { req with coupon_code := none } = (s0, .created order0)) :
    ∃ s' order, place now fault s req = (s', .created order) ∧
      order.discount_amount = 0 ∧ order.total_amount = subtotal s items ∧
      order = { order0 with coupon_code := order.coupon_code } ∧
      s' = { s0 with orders := s.orders ++ [order] } := by
  obtain ⟨items', a, p, hit', hne, hall, ha, hp, ho, hs⟩ :=
    place_created now fault s s0 _ order0 hplain
  have hii : items' = items := by
    have : some items' = some items := hit'.symm.trans hit
    exact Option.some.inj this
  subst hii
  have hv := findSome_none_of_resolved s items' hall
  have hap : applyCoupon s now req.coupon_code (subtotal s items') = (subtotal s items', 0) := by
    apply applyCoupon_ignored
    intro c hc
    rw [hcode] at hc
    cases hc
    exact hcoupon
  have hplain' := hplain
  rw [place_valid now fault s _ items' hit' hne hv,
    commitOrder_eq now fault s _ items' _ a p ha hp (fun i hi => (hall i hi).1)] at hplain'
  rw [place_valid now fault s req items' hit hne hv,
    commitOrder_eq now fault s req items' _ a p ha hp (fun i hi => (hall i hi).1), hap]
  have hap0 : applyCoupon s now ({ req with coupon_code := none } : PlaceRequest).coupon_code
      (subtotal s items') = (subtotal s items', 0) := applyCoupon_no_code s now _ _ rfl
  rw [hap0] at hplain' ho
  have hd0 : ∀ (r : PlaceRequest) (x y : String),
      (newOrder s now r x y (subtotal s items') 0).discount_amount = 0 :=
    fun _ _ _ => roundCents_zero
  have ht0 : ∀ (r : PlaceRequest) (x y : String),
      (newOrder s now r x y (subtotal s items') 0).total_amount = subtotal s items' :=
    fun _ _ _ => roundCents_subtotal s items'
  unfold commitOutcome at hplain' ⊢
  match fault, hplain' with
  | none, hplain' =>
    simp only [Prod.mk.injEq, Response.created.injEq] at hplain'
    refine ⟨_, _, rfl, hd0 _ _ _, ht0 _ _ _, ?_, ?_⟩
    · rw [ho]; rfl
    · rw [← hplain'.1, finalStore_insertOrder, finalStore_insertOrder]
      rfl
  | some 0, hplain' => simp at hplain'
  | some (d + 1), hplain' =>
    by_cases hd : d < 2 * items'.length
    · simp [hd] at hplain'
    · simp only [hd, if_false, Prod.mk.injEq, Response.created.injEq] at hplain' ⊢
      refine ⟨_, _, ⟨rfl, rfl⟩, hd0 _ _ _, ht0 _ _ _, ?_, ?_⟩
      · rw [ho]; rfl
      · rw [← hplain'.1, finalStore_insertOrder, finalStore_insertOrder]
        rfl

/-- C7, witness: the coupon `BIG` of the demo store asks for a purchase of 10000 and
the cart has a subtotal of 100. -/
theorem place_ignores_inapplicable_coupon_witness :
    ∃ s' order, place 5 none demoStore (demoRequest [⟨1, 1⟩] (some "BIG")) = (s', .created order) ∧
      order.discount_amount = 0 ∧ order.total_amount = subtotal demoStore [⟨1, 1⟩] ∧
      order = { newOrder demoStore 5 (demoRequest [⟨1, 1⟩] none) "Main St" "255" 100 0 with
        coupon_code := order.coupon_code } ∧
      s' = { (place 5 none demoStore (demoRequest [⟨1, 1⟩] none)).1 with
        orders := demoStore.orders ++ [order] } :=
  place_ignores_inapplicable_coupon 5 none demoStore
    (place 5 none demoStore (demoRequest [⟨1, 1⟩] none)).1
    (demoRequest [⟨1, 1⟩] (some "BIG")) [⟨1, 1⟩] "BIG"
    (newOrder demoStore 5 (demoRequest [⟨1, 1⟩] none) "Main St" "255" 100 0)
    rfl rfl
    (Or.inr ⟨demoCouponBig, [], by decide, by
      simp [subtotal, lineAmount, productOf, selectProduct, demoStore, demoCouponBig, toNumber?,
        unitPrice, jsOr, JsNum.toNumber, Decimal2.toNumber]
      norm_num⟩)
    (by
      simp [place, demoStore, demoRequest, priceItems, selectProduct, commitOrder, applyCoupon,
        strTruthy, writeItems, insertOrder, insertOrderItem, updateStock, newOrder, unitPrice,
        jsOr, Decimal2.toNumber, Decimal2.truthy, IdText.rowId]
      norm_num)

/-- C8: for a coupon that applies (found for the code, minimum purchase reached) the
discount the handler computes is `subtotal * discount_percentage / 100` when a
percentage is set (a non-zero one, as the table constraint demands), whatever the flat
amount is; without a percentage it is the flat `discount_amount` when that is set, and
0 when neither is set. The order row stores that discount rounded to two decimals. -/
theorem place_discount_formula (now : Nat) (fault : Option Nat) (s s' : Store)
    (req : PlaceRequest) (items : List Item) (code : String) (coupon : Coupon)
    (tl : List Coupon) (order : Order)
    (hplace : place now fault s req = (s', .created order))
    (hit : req.items = some items)
    (hcode : req.coupon_code = some code) (hne : code ≠ "")
    (hsel : selectCoupon s now code = coupon :: tl)
    (hmin : toNumber? coupon.min_purchase_amount ≤ subtotal s items) :
    priceItems s items 0 = .ok (subtotal s items) ∧
    order.discount_amount =
      roundCents (applyCoupon s now req.coupon_code (subtotal s items)).2 ∧
    (∀ pct, coupon.discount_percentage = some pct → pct ≠ 0 →
      (applyCoupon s now req.coupon_code (subtotal s items)).2 =
        subtotal s items * pct / 100) ∧
    (coupon.discount_percentage = none → ∀ amount, coupon.discount_amount = some amount →
      (applyCoupon s now req.coupon_code (subtotal s items)).2 = amount.toNumber) ∧
    (coupon.discount_percentage = none → coupon.discount_amount = none →
      (applyCoupon s now req.coupon_code (subtotal s items)).2 = 0 ∧
      order.discount_amount = 0) := by
  obtain ⟨items', a, p, hit', _, hall, _, _, ho, _⟩ :=
    place_created now fault s s' req order hplace
  have hii : items' = items := Option.some.inj (hit'.symm.trans hit)
  subst hii
  have hs : order.discount_amount =
      roundCents (applyCoupon s now req.coupon_code (subtotal s items')).2 := by
    rw [ho]; rfl
  have hd : (applyCoupon s now req.coupon_code (subtotal s items')).2 =
      discountOf coupon (subtotal s items') := by
    simp [applyCoupon, hcode, strTruthy, hne, hsel, hmin]
  rw [hs, hd]
  refine ⟨?_, rfl, ?_, ?_, ?_⟩
  · rw [priceItems_eq, findSome_none_of_resolved s items' hall]
    simp
  · intro pct hp h0
    simp [discountOf, hp, intTruthy, h0, mul_div_assoc]
  · intro hp amount ham
    simp only [discountOf, hp, intTruthy, ham, truthy?, toNumber?]
    cases amount with
    | text q => simp [JsNum.truthy]
  · intro hp ham
    simp [discountOf, hp, intTruthy, ham, truthy?, roundCents_zero]

/-- C8, witness: the coupon `SAVE10` of 10 percent on a cart of subtotal 100. -/
theorem place_discount_formula_witness :
    (applyCoupon demoStore 5 (some "SAVE10") (subtotal demoStore [⟨1, 1⟩])).2 =
      subtotal demoStore [⟨1, 1⟩] * (10 : Int) / 100 :=
  (place_discount_formula 5 none demoStore
    (place 5 none demoStore (demoRequest [⟨1, 1⟩] (some "SAVE10"))).1
    (demoRequest [⟨1, 1⟩] (some "SAVE10")) [⟨1, 1⟩] "SAVE10" demoCouponSave []
    (newOrder demoStore 5 (demoRequest [⟨1, 1⟩] (some "SAVE10")) "Main St" "255" 90 10)
    (by
      simp [place, demoStore, demoCouponSave, demoCouponBig, demoRequest, priceItems,
        selectProduct, commitOrder, applyCoupon, strTruthy, writeItems, insertOrder,
        insertOrderItem, updateStock, newOrder, selectCoupon, discountOf, intTruthy, toNumber?,
        unitPrice, jsOr, JsNum.toNumber, Decimal2.toNumber, Decimal2.truthy, IdText.rowId]
      norm_num)
    rfl rfl (by decide) (by decide)
    (by
      simp [subtotal, lineAmount, productOf, selectProduct, demoStore, demoCouponSave, toNumber?,
        unitPrice, jsOr, JsNum.toNumber, Decimal2.toNumber]
      norm_num)).2.2.1 10 rfl (by decide)

theorem itemRows_fields (s : Store) (order_id : Nat) (items : List Item) (n : Nat)
    (hres : ∀ i ∈ items, unresolved s i = false) :
    (itemRows s order_id items n).map
        (fun r => (r.order_id, IdText.uuid r.product_id, r.quantity, r.price)) =
      items.map (fun i => (order_id, i.product_id, i.quantity, linePrice s i)) := by
  induction items generalizing n with
  | nil => rfl
  | cons item rest ih =>
    have hid := rowId_of_resolved s item (hres item (by simp))
    simp only [itemRows, List.map_cons, ih (n + 1) (fun i hi => hres i (by simp [hi])), ← hid]

/-- C9: after a successful placement the store holds, after the rows it held before,
one new order item per cart line, in input order, with the id of the new order, the
product id and quantity of the line and the unit price of its product; every product
row has its former stock minus the quantities of all cart lines that refer to it,
which is its former stock when no line refers to it. -/
theorem place_writes_items_and_stock (now : Nat) (fault : Option Nat) (s s' : Store)
    (req : PlaceRequest) (order : Order)
    (h : place now fault s req = (s', .created order)) :
    ∃ items rows, req.items = some items ∧
      s'.order_items = s.order_items ++ rows ∧
      rows.map (fun r => (r.order_id, IdText.uuid r.product_id, r.quantity, r.price)) =
        items.map (fun i => (order.id, i.product_id, i.quantity, linePrice s i)) ∧
      s'.products = s.products.map (fun p => { p with stock := p.stock - qtySum items p.id }) ∧
      (∀ product_id, (∀ i ∈ items, i.product_id ≠ IdText.uuid product_id) →
        qtySum items product_id = 0) := by
  obtain ⟨items, a, p, hit, _, hall, _, _, _, hs⟩ := place_created now fault s s' req order h
  refine ⟨items, itemRows s order.id items (s.nextId + 1), hit, ?_, ?_, ?_, ?_⟩
  · rw [hs, finalStore_insertOrder]
  · exact itemRows_fields s order.id items (s.nextId + 1) (fun i hi => (hall i hi).1)
  · rw [hs, finalStore_insertOrder]
  · intro pid hpid
    unfold qtySum
    have : items.filter (fun i => i.product_id == IdText.uuid pid) = [] := by
      apply List.filter_eq_nil_iff.mpr
      intro i hi
      simpa using hpid i hi
    rw [this]
    rfl

/-- C9, witness: two units of product 2 of the demo store. -/
theorem place_writes_items_and_stock_witness :
    ∃ items rows, (demoRequest [⟨2, 2⟩] none).items = some items ∧
      (place 5 none demoStore (demoRequest [⟨2, 2⟩] none)).1.order_items =
        demoStore.order_items ++ rows ∧
      rows.map (fun r => (r.order_id, IdText.uuid r.product_id, r.quantity, r.price)) =
        items.map (fun i =>
          ((newOrder demoStore 5 (demoRequest [⟨2, 2⟩] none) "Main St" "255" 100 0).id,
            i.product_id, i.quantity, linePrice demoStore i)) ∧
      (place 5 none demoStore (demoRequest [⟨2, 2⟩] none)).1.products =
        demoStore.products.map (fun p => { p with stock := p.stock - qtySum items p.id }) ∧
      (∀ product_id, (∀ i ∈ items, i.product_id ≠ IdText.uuid product_id) →
        qtySum items product_id = 0) :=
  place_writes_items_and_stock 5 none demoStore
    (place 5 none demoStore (demoRequest [⟨2, 2⟩] none)).1 (demoRequest [⟨2, 2⟩] none)
    (newOrder demoStore 5 (demoRequest [⟨2, 2⟩] none) "Main St" "255" 100 0)
    (by
      simp [place, demoStore, demoRequest, priceItems, selectProduct, commitOrder, applyCoupon,
        strTruthy, writeItems, insertOrder, insertOrderItem, updateStock, newOrder, unitPrice,
        jsOr, Decimal2.toNumber, Decimal2.truthy, IdText.rowId]
      norm_num)

/-- C10 on the demo store: every stock is non-negative, the cart with two lines of
one unit of product 1 (stock 1) passes the stock test line by line and is placed, and
afterwards the stock of product 1 is `-1`. -/
theorem place_duplicate_lines_negative_stock :
    (∀ p ∈ demoStore.products, 0 ≤ p.stock) ∧
    (place 5 none demoStore (demoRequest [⟨1, 1⟩, ⟨1, 1⟩] none)).2.isCreated = true ∧
    (place 5 none demoStore (demoRequest [⟨1, 1⟩, ⟨1, 1⟩] none)).1.products.map
      (fun p => (p.id, p.stock)) = [(1, -1), (2, 4)] := by
  decide
/-- C11 on the demo store: a cart that passes validation, sent without
`shipping_address` or without `phone`, is answered with the `500` of the `catch` block
(the order insert is refused by `NOT NULL`), not with a `400`; no order is created. -/
theorem place_missing_shipping_is_server_error :
    place 5 none demoStore
        { userId := 7, items := some [⟨1, 1⟩], shipping_address := none, phone := some "255",
          coupon_code := none, payment_method := none } = (demoStore, .serverError) ∧
    place 5 none demoStore
        { userId := 7, items := some [⟨1, 1⟩], shipping_address := some "Main St", phone := none,
          coupon_code := none, payment_method := none } = (demoStore, .serverError) ∧
    (place 5 none demoStore (demoRequest [⟨1, 1⟩] none)).2.isCreated = true := by
  decide

theorem loyaltyOf_map_same (rows : List LoyaltyPoints) (u : Nat)
    (g : LoyaltyPoints → LoyaltyPoints) (hg : ∀ r, (g r).user_id = r.user_id) :
    loyaltyOf (rows.map (fun r => if r.user_id == u then g r else r)) u =
      (loyaltyOf rows u).map g := by
  unfold loyaltyOf
  induction rows with
  | nil => rfl
  | cons r rest ih =>
    simp only [List.map_cons, List.find?_cons]
    cases hb : (r.user_id == u)
    · simp only [Bool.false_eq_true, if_false, hb]
      exact ih
    · simp only [if_true, hg, hb, Option.map_some']
theorem loyaltyOf_map_other (rows : List LoyaltyPoints) (u v : Nat) (hv : v ≠ u)
    (g : LoyaltyPoints → LoyaltyPoints) (hg : ∀ r, (g r).user_id = r.user_id) :
    loyaltyOf (rows.map (fun r => if r.user_id == u then g r else r)) v = loyaltyOf rows v := by
  unfold loyaltyOf
  induction rows with
  | nil => rfl
  | cons r rest ih =>
    simp only [List.map_cons, List.find?_cons]
    cases hb : (r.user_id == u)
    · simp only [Bool.false_eq_true, if_false]
      rw [ih]
    · have hru : r.user_id = u := by simpa using hb
      have hrv : (r.user_id == v) = false := by
        simp only [beq_eq_false_iff_ne, ne_eq, hru]
        exact fun e => hv e.symm
      simp only [if_true, hg, hrv]
      exact ih
theorem loyaltyOf_any (rows : List LoyaltyPoints) (u : Nat) :
    rows.any (fun r => r.user_id == u) = (loyaltyOf rows u).isSome := by
  unfold loyaltyOf
  induction rows with
  | nil => rfl
  | cons r rest ih =>
    simp only [List.any_cons, List.find?_cons]
    cases hb : (r.user_id == u)
    · simpa using ih
    · simp
theorem loyaltyOf_append (rows : List LoyaltyPoints) (r : LoyaltyPoints) (v : Nat) :
    loyaltyOf (rows ++ [r]) v =
      (loyaltyOf rows v).or (if r.user_id = v then some r else none) := by
  unfold loyaltyOf
  rw [List.find?_append]
  congr 1
  by_cases h : r.user_id = v
  · simp [List.find?_cons, h]
  · have : (r.user_id == v) = false := by simpa using h
    simp [List.find?_cons, h, this]
theorem update_loyalty_points_orders (old new : Order) (db : Ledger) :
    (update_loyalty_points old new db).store.orders = db.store.orders := by
  unfold update_loyalty_points
  split
  · split <;> rfl
  · rfl
theorem foldl_trigger_orders (rows : List Order) (s : String) (db : Ledger) :
    (rows.foldl (fun d o => update_loyalty_points o { o with status := s } d) db).store.orders =
      db.store.orders := by
  induction rows generalizing db with
  | nil => rfl
  | cons o rest ih =>
    simp only [List.foldl_cons]
    rw [ih, update_loyalty_points_orders]

theorem trigger_on_edge (old new : Order) (db : Ledger)
    (hnew : new.status = "completed") (hold : old.status ≠ "completed") :
    (∀ r, loyaltyOf db.loyalty_points new.user_id = some r →
      loyaltyOf (update_loyalty_points old new db).loyalty_points new.user_id =
        some { r with
          points := r.points + ⌊new.total_amount / 100⌋
          lifetime_points := r.lifetime_points + ⌊new.total_amount / 100⌋ }) ∧
    (loyaltyOf db.loyalty_points new.user_id = none →
      loyaltyOf (update_loyalty_points old new db).loyalty_points new.user_id =
        some { id := db.store.nextId, user_id := new.user_id,
               points := ⌊new.total_amount / 100⌋,
               lifetime_points := ⌊new.total_amount / 100⌋ }) ∧
    (∀ v, v ≠ new.user_id →
      loyaltyOf (update_loyalty_points old new db).loyalty_points v =
        loyaltyOf db.loyalty_points v) := by
  have hc : new.status = "completed" ∧ old.status ≠ "completed" := ⟨hnew, hold⟩
  refine ⟨?_, ?_, ?_⟩
  · intro r hr
    have hany : db.loyalty_points.any (fun r => r.user_id == new.user_id) = true := by
      rw [loyaltyOf_any, hr]; rfl
    rw [update_loyalty_points, if_pos hc, if_pos hany]
    have h := loyaltyOf_map_same db.loyalty_points new.user_id
      (fun r => { r with
        points := r.points + ⌊new.total_amount / 100⌋
        lifetime_points := r.lifetime_points + ⌊new.total_amount / 100⌋ }) (fun _ => rfl)
    rw [hr] at h
    exact h
  · intro hr
    have hany : ¬ db.loyalty_points.any (fun r => r.user_id == new.user_id) = true := by
      rw [loyaltyOf_any, hr]; simp
    rw [update_loyalty_points, if_pos hc, if_neg hany]
    have h := loyaltyOf_append db.loyalty_points
      { id := db.store.nextId, user_id := new.user_id,
        points := ⌊new.total_amount / 100⌋,
        lifetime_points := ⌊new.total_amount / 100⌋ } new.user_id
    rw [hr] at h
    simpa using h
  · intro v hv
    by_cases hany : db.loyalty_points.any (fun r => r.user_id == new.user_id) = true
    · rw [update_loyalty_points, if_pos hc, if_pos hany]
      exact loyaltyOf_map_other _ _ _ hv _ (fun _ => rfl)
    · rw [update_loyalty_points, if_pos hc, if_neg hany]
      have h := loyaltyOf_append db.loyalty_points
        { id := db.store.nextId, user_id := new.user_id,
          points := ⌊new.total_amount / 100⌋,
          lifetime_points := ⌊new.total_amount / 100⌋ } v
      have hne : ¬ new.user_id = v := fun e => hv e.symm
      simp only [hne, if_false, Option.or_none] at h
      exact h

theorem update_loyalty_points_congr (old new : Order) (db db' : Ledger)
    (hl : db'.loyalty_points = db.loyalty_points) (hn : db'.store.nextId = db.store.nextId) :
    (update_loyalty_points old new db').loyalty_points =
      (update_loyalty_points old new db).loyalty_points := by
  unfold update_loyalty_points
  split
  · rw [hl]
    split
    · rfl
    · simp only [hn]
  · exact hl

theorem updateStatus_single (db : Ledger) (id : Nat) (old : Order) (s : String)
    (hsel : db.store.orders.filter (fun o => o.id == id) = [old]) :
    (updateStatus db (.uuid id) (some s)).2 = .ok { old with status := s } ∧
    (updateStatus db (.uuid id) (some s)).1.loyalty_points =
      (update_loyalty_points old { old with status := s } db).loyalty_points := by
  simp only [updateStatus, hsel, List.foldl_cons, List.foldl_nil, true_and]
  exact update_loyalty_points_congr _ _ _ _ rfl rfl

/-- C12: the trigger, run for the update of an order row from `old` to `new`, adds
`floor(total_amount / 100)` to both `points` and `lifetime_points` of the owning user
when the new status is `completed` and the old one is not, creating the row with that
value when the user has none, and leaves the whole table as it is otherwise; the rows
of all other users are untouched. `PATCH /orders/:id/status` runs it for the order it
updates: setting an order that is not `completed` to `completed` awards
`floor(total_amount / 100)` to its owner and to nobody else, setting any other status
awards nothing, and setting `completed` on an order that is already `completed` awards
nothing. -/
theorem loyalty_accrues_on_transition_edge (old new : Order) (db : Ledger) :
    (new.status = "completed" → old.status ≠ "completed" →
      (∀ r, loyaltyOf db.loyalty_points new.user_id = some r →
        loyaltyOf (update_loyalty_points old new db).loyalty_points new.user_id =
          some { r with
            points := r.points + ⌊new.total_amount / 100⌋
            lifetime_points := r.lifetime_points + ⌊new.total_amount / 100⌋ }) ∧
      (loyaltyOf db.loyalty_points new.user_id = none →
        loyaltyOf (update_loyalty_points old new db).loyalty_points new.user_id =
          some { id := db.store.nextId, user_id := new.user_id,
                 points := ⌊new.total_amount / 100⌋,
                 lifetime_points := ⌊new.total_amount / 100⌋ }) ∧
      (∀ v, v ≠ new.user_id →
        loyaltyOf (update_loyalty_points old new db).loyalty_points v =
          loyaltyOf db.loyalty_points v)) ∧
    (¬ (new.status = "completed" ∧ old.status ≠ "completed") →
      update_loyalty_points old new db = db) ∧
    (∀ id, db.store.orders.filter (fun o => o.id == id) = [old] →
      (old.status ≠ "completed" →
        (updateStatus db (.uuid id) (some "completed")).2 =
          .ok { old with status := "completed" } ∧
        (∀ r, loyaltyOf db.loyalty_points old.user_id = some r →
          loyaltyOf (updateStatus db (.uuid id) (some "completed")).1.loyalty_points
              old.user_id =
            some { r with
              points := r.points + ⌊old.total_amount / 100⌋
              lifetime_points := r.lifetime_points + ⌊old.total_amount / 100⌋ }) ∧
        (loyaltyOf db.loyalty_points old.user_id = none →
          loyaltyOf (updateStatus db (.uuid id) (some "completed")).1.loyalty_points
              old.user_id =
            some { id := db.store.nextId, user_id := old.user_id,
                   points := ⌊old.total_amount / 100⌋,
                   lifetime_points := ⌊old.total_amount / 100⌋ }) ∧
        (∀ v, v ≠ old.user_id →
          loyaltyOf (updateStatus db (.uuid id) (some "completed")).1.loyalty_points v =
            loyaltyOf db.loyalty_points v)) ∧
      (∀ s, s ≠ "completed" →
        (updateStatus db (.uuid id) (some s)).1.loyalty_points = db.loyalty_points) ∧
      (old.status = "completed" →
        (updateStatus db (.uuid id) (some "completed")).1.loyalty_points =
          db.loyalty_points)) := by
  refine ⟨trigger_on_edge old new db, ?_, ?_⟩
  · intro h
    rw [update_loyalty_points, if_neg h]
  · intro id hsel
    refine ⟨?_, ?_, ?_⟩
    · intro hold
      have hs := updateStatus_single db id old "completed" hsel
      have ht := trigger_on_edge old { old with status := "completed" } db rfl hold
      rw [hs.2]
      exact ⟨hs.1, ht⟩
    · intro s hs
      rw [(updateStatus_single db id old s hsel).2, update_loyalty_points,
        if_neg (fun h => hs h.1)]
    · intro hold
      rw [(updateStatus_single db id old "completed" hsel).2, update_loyalty_points,
        if_neg (fun h => h.2 hold)]

/-- C12, witness: `demoOrder` (total 250, pending, user 7, no loyalty row yet) is set
to `completed` through the status route and the user receives a row with 2 points. -/
theorem loyalty_accrues_on_transition_edge_witness :
    loyaltyOf (updateStatus demoLedger 3 (some "completed")).1.loyalty_points 7 =
      some { id := 10, user_id := 7, points := 2, lifetime_points := 2 } := by
  have h := (((loyalty_accrues_on_transition_edge demoOrder
    { demoOrder with status := "completed" } demoLedger).2.2 3 (by decide)).1
      (by decide)).2.2.1 rfl
  have hf : ⌊(250 : ℚ) / 100⌋ = 2 := by norm_num [Int.floor_eq_iff]
  simp only [demoOrder] at h
  rw [hf] at h
  exact h

/-- C13, counterexample: the path `PATCH /orders/abc/status`, whose id is no UUID text
and so is the id of no order, is answered with the `500` of the `catch` block, not with
`notFound`. -/
theorem updateStatus_malformed_id_is_server_error :
    (∀ o ∈ demoLedger.store.orders, IdText.uuid o.id ≠ IdText.malformed) ∧
    updateStatus demoLedger .malformed (some "shipped") = (demoLedger, .serverError) ∧
    (updateStatus demoLedger .malformed (some "shipped")).2 ≠ .notFound := by
  refine ⟨?_, rfl, ?_⟩
  · intro o _ h
    cases h
  · intro h
    cases h

/-- C13, amended: for an order id that selects rows, `PATCH /orders/:id/status` with
any status string `s` answers with the first selected row carrying status `s`, whatever
its former status, and the table holds every row of that id with status `s` and every
other row as it was; for an id in UUID syntax that selects no row it answers `notFound`
and changes nothing; for an id that is no UUID text it answers `500` and changes
nothing. -/
theorem updateStatus_overwrites (db : Ledger) (id : Nat) :
    (∀ (s : String) (o : Order) (tl : List Order),
      db.store.orders.filter (fun x => x.id == id) = o :: tl →
      (updateStatus db (.uuid id) (some s)).2 = .ok { o with status := s } ∧
      (updateStatus db (.uuid id) (some s)).1.store.orders =
        db.store.orders.map (fun x => if x.id == id then { x with status := s } else x)) ∧
    (∀ status, db.store.orders.filter (fun x => x.id == id) = [] →
      updateStatus db (.uuid id) status = (db, .notFound)) ∧
    (∀ status, updateStatus db .malformed status = (db, .serverError)) := by
  refine ⟨?_, ?_, ?_⟩
  · intro s o tl hsel
    simp only [updateStatus, hsel]
    refine ⟨trivial, ?_⟩
    rw [foldl_trigger_orders]
    rfl
  · intro status hsel
    simp only [updateStatus, hsel]
  · intro status
    rfl

/-- C13, witness: `demoOrder` is set from `pending` to the free text `whatever`. -/
theorem updateStatus_overwrites_witness :
    (updateStatus demoLedger 3 (some "whatever")).2 = .ok { demoOrder with status := "whatever" } ∧
    (updateStatus demoLedger 3 (some "whatever")).1.store.orders =
      demoLedger.store.orders.map
        (fun x => if x.id == 3 then { x with status := "whatever" } else x) :=
  (updateStatus_overwrites demoLedger 3).1 "whatever" demoOrder [] (by decide)

/-- C14, counterexample: user 1 connects on handle 1, then on handle 2, then the
`close` event of handle 1 fires; the registry then has no entry for user 1, although
handle 2 is open. The `error` event does the same. -/
theorem stale_close_removes_newer_handle :
    (onConnection demoVerify (onConnection demoVerify emptyHub 1 (some "alice")) 2
      (some "alice")).clients 1 = some 2 ∧
    (onClose (onConnection demoVerify (onConnection demoVerify emptyHub 1 (some "alice")) 2
      (some "alice")) 1).clients 1 = none ∧
    (onError (onConnection demoVerify (onConnection demoVerify emptyHub 1 (some "alice")) 2
      (some "alice")) 1).clients 1 = none ∧
    ((onClose (onConnection demoVerify (onConnection demoVerify emptyHub 1 (some "alice")) 2
      (some "alice")) 1).sockets 2).readyState = 1 := by
  decide
theorem onConnection_accept (verify : String → Option Nat) (hub : Hub) (ws : Nat)
    (token : Option String) (u : Nat) (htok : strTruthy token = true)
    (hver : verify (token.getD "") = some u) :
    onConnection verify hub ws token =
      { clients := Function.update hub.clients u (some ws)
        sockets := Function.update hub.sockets ws
          { hub.sockets ws with userId := some u, handlers := some u } } := by
  simp [onConnection, htok, hver]
theorem onConnection_reject (verify : String → Option Nat) (hub : Hub) (ws : Nat)
    (token : Option String)
    (h : strTruthy token = false ∨ verify (token.getD "") = none) :
    onConnection verify hub ws token =
      closeSocket hub ws 1008
        (if strTruthy token then "Invalid token" else "Authentication required") := by
  unfold onConnection
  cases htok : strTruthy token with
  | false => simp
  | true =>
    rcases h with h | h
    · rw [htok] at h; cases h
    · simp [h]
/-- C14, amended: the `close` and the `error` handler of a handle remove the registry
entry of the user the handle was accepted for, whichever handle that entry refers to;
so when a user is accepted on `h1`, then on `h2`, and the `close` or `error` event of
`h1` fires, the registry has no entry for the user any more, and the entries of all
other users are as before. -/
theorem close_removes_entry_of_user (verify : String → Option Nat) (hub : Hub) (h1 h2 : Nat)
    (token : Option String) (u : Nat) (hne : h1 ≠ h2) (htok : strTruthy token = true)
    (hver : verify (token.getD "") = some u) :
    (∀ (hub' : Hub) (ws' u' : Nat), (hub'.sockets ws').handlers = some u' →
      (onClose hub' ws').clients u' = none ∧ (onError hub' ws').clients u' = none) ∧
    (onConnection verify (onConnection verify hub h1 token) h2 token).clients u = some h2 ∧
    (onClose (onConnection verify (onConnection verify hub h1 token) h2 token) h1).clients u =
      none ∧
    (onError (onConnection verify (onConnection verify hub h1 token) h2 token) h1).clients u =
      none ∧
    (∀ v, v ≠ u →
      (onClose (onConnection verify (onConnection verify hub h1 token) h2 token) h1).clients v =
        hub.clients v) := by
  have hgen : ∀ (hub' : Hub) (ws' u' : Nat), (hub'.sockets ws').handlers = some u' →
      (onClose hub' ws').clients u' = none ∧ (onError hub' ws').clients u' = none := by
    intro hub' ws' u' hh
    simp [onClose, onError, hh]
  have hh1 : ((onConnection verify (onConnection verify hub h1 token) h2 token).sockets
      h1).handlers = some u := by
    rw [onConnection_accept verify _ h2 token u htok hver,
      onConnection_accept verify hub h1 token u htok hver]
    simp [Function.update, hne]
  refine ⟨hgen, ?_, (hgen _ h1 u hh1).1, (hgen _ h1 u hh1).2, ?_⟩
  · rw [onConnection_accept verify _ h2 token u htok hver]
    simp
  · intro v hv
    simp only [onClose, hh1]
    rw [onConnection_accept verify _ h2 token u htok hver,
      onConnection_accept verify hub h1 token u htok hver]
    simp [Function.update, hv]
/-- C14, witness: user 1 on the handles 1 and 2 of the empty hub. -/
theorem close_removes_entry_of_user_witness :
    (onClose (onConnection demoVerify (onConnection demoVerify emptyHub 1 (some "alice")) 2
      (some "alice")) 1).clients 1 = none :=
  (close_removes_entry_of_user demoVerify emptyHub 1 2 (some "alice") 1 (by decide)
    (by decide) (by decide)).2.2.1
/-- C15: when a connection with a token that verifies for user `u` is accepted on
the handle `ws`, the registry maps `u` to `ws`, whatever it mapped `u` to before, and
maps every other user to what it did before. -/
theorem connection_registers_handle (verify : String → Option Nat) (hub : Hub) (ws : Nat)
    (token : Option String) (u : Nat) (htok : strTruthy token = true)
    (hver : verify (token.getD "") = some u) :
    (onConnection verify hub ws token).clients u = some ws ∧
    (∀ v, v ≠ u → (onConnection verify hub ws token).clients v = hub.clients v) := by
  rw [onConnection_accept verify hub ws token u htok hver]
  refine ⟨by simp, ?_⟩
  intro v hv
  simp [Function.update, hv]
/-- C15, witness: user 1, already registered on handle 1, connects on handle 2. -/
theorem connection_registers_handle_witness :
    (onConnection demoVerify (onConnection demoVerify emptyHub 1 (some "alice")) 2
      (some "alice")).clients 1 = some 2 ∧
    (∀ v, v ≠ 1 →
      (onConnection demoVerify (onConnection demoVerify emptyHub 1 (some "alice")) 2
        (some "alice")).clients v =
      (onConnection demoVerify emptyHub 1 (some "alice")).clients v) :=
  connection_registers_handle demoVerify (onConnection demoVerify emptyHub 1 (some "alice")) 2
    (some "alice") 1 (by decide) (by decide)
/-- C16: for a token that is missing (absent or empty) or does not verify, the
`connection` handler closes the handle and leaves the registry as it was; the handle
keeps the handlers and the user id it had, every other handle is untouched, and for a
handle that had no handlers later `message`, `close` and `error` events do nothing. -/
theorem rejected_connection_not_registered (verify : String → Option Nat) (hub : Hub)
    (ws : Nat) (token : Option String)
    (h : strTruthy token = false ∨ verify (token.getD "") = none) :
    (onConnection verify hub ws token).clients = hub.clients ∧
    ((onConnection verify hub ws token).sockets ws).closed ≠ none ∧
    ((onConnection verify hub ws token).sockets ws).readyState = 2 ∧
    ((onConnection verify hub ws token).sockets ws).handlers = (hub.sockets ws).handlers ∧
    ((onConnection verify hub ws token).sockets ws).userId = (hub.sockets ws).userId ∧
    (∀ w, w ≠ ws → (onConnection verify hub ws token).sockets w = hub.sockets w) ∧
    ((hub.sockets ws).handlers = none → ∀ m,
      onMessage (onConnection verify hub ws token) ws m =
        (onConnection verify hub ws token, false) ∧
      onClose (onConnection verify hub ws token) ws = onConnection verify hub ws token ∧
      onError (onConnection verify hub ws token) ws = onConnection verify hub ws token) := by
  rw [onConnection_reject verify hub ws token h]
  refine ⟨rfl, by simp [closeSocket], by simp [closeSocket], by simp [closeSocket],
    by simp [closeSocket], ?_, ?_⟩
  · intro w hw
    simp [closeSocket, Function.update, hw]
  · intro hnone m
    have hh : ((closeSocket hub ws 1008
        (if strTruthy token then "Invalid token" else "Authentication required")).sockets
          ws).handlers = none := by
      simp [closeSocket, hnone]
    simp [onMessage, onClose, onError, hh]
/-- C16, witness: a connection without token on handle 1 of the empty hub. -/
theorem rejected_connection_not_registered_witness :
    (onConnection demoVerify emptyHub 1 none).clients = emptyHub.clients ∧
    ((onConnection demoVerify emptyHub 1 none).sockets 1).closed ≠ none :=
  ⟨(rejected_connection_not_registered demoVerify emptyHub 1 none (Or.inl rfl)).1,
   (rejected_connection_not_registered demoVerify emptyHub 1 none (Or.inl rfl)).2.1⟩
/-- C17, counterexample: on the empty hub a connection without token and a connection
with a token that does not verify are both closed with the code 1008. -/
theorem missing_and_invalid_token_same_close_code :
    ((onConnection demoVerify emptyHub 1 none).sockets 1).closed =
      some (1008, "Authentication required") ∧
    ((onConnection demoVerify emptyHub 1 (some "mallory")).sockets 1).closed =
      some (1008, "Invalid token") ∧
    (((onConnection demoVerify emptyHub 1 none).sockets 1).closed.map Prod.fst) =
      (((onConnection demoVerify emptyHub 1 (some "mallory")).sockets 1).closed.map Prod.fst) := by
  decide
/-- C17, amended: the endpoint closes a connection without token and a connection with
an invalid token with the same close code 1008; the two differ in the reason text
only, `Authentication required` against `Invalid token`. -/
theorem rejected_connection_close_frame (verify : String → Option Nat) (hub : Hub) (ws : Nat)
    (token : Option String) :
    (strTruthy token = false →
      ((onConnection verify hub ws token).sockets ws).closed =
        some (1008, "Authentication required")) ∧
    (strTruthy token = true → verify (token.getD "") = none →
      ((onConnection verify hub ws token).sockets ws).closed = some (1008, "Invalid token")) ∧
    "Authentication required" ≠ "Invalid token" := by
  refine ⟨?_, ?_, by decide⟩
  · intro h
    rw [onConnection_reject verify hub ws token (Or.inl h)]
    simp [closeSocket, h]
  · intro h hv
    rw [onConnection_reject verify hub ws token (Or.inr hv)]
    simp [closeSocket, h]
/-- C17, witness: the token `mallory` does not verify. -/
theorem rejected_connection_close_frame_witness :
    ((onConnection demoVerify emptyHub 1 (some "mallory")).sockets 1).closed =
      some (1008, "Invalid token") :=
  (rejected_connection_close_frame demoVerify emptyHub 1 (some "mallory")).2.1 (by decide)
    (by decide)
/-- C18: a typing frame received on the open connection of user `s`, whatever
`senderId` the frame itself claims: when the registry holds a handle for `receiverId`
and that handle is open, the handler sends the one notice `{senderId: s, isTyping}` to
that handle, every other handle and the registry stay as they were, and the `catch`
block does not run; when the registry holds no handle for `receiverId`, or the handle
is not open, the hub is left as it was and the `catch` block does not run. -/
theorem typing_relay (hub : Hub) (ws s receiver : Nat) (isTyping : Option Bool)
    (claimed : Option Nat) (hs : (hub.sockets ws).handlers = some s) :
    (∀ rws, hub.clients receiver = some rws → (hub.sockets rws).readyState = 1 →
      (onMessage hub ws (.object (some "typing") (some receiver) isTyping claimed)).2 = false ∧
      (onMessage hub ws (.object (some "typing") (some receiver) isTyping claimed)).1.clients =
        hub.clients ∧
      ((onMessage hub ws (.object (some "typing") (some receiver) isTyping claimed)).1.sockets
          rws).sent = (hub.sockets rws).sent ++ [{ senderId := s, isTyping := isTyping }] ∧
      (∀ w, w ≠ rws →
        (onMessage hub ws (.object (some "typing") (some receiver) isTyping claimed)).1.sockets w =
          hub.sockets w)) ∧
    ((hub.clients receiver = none ∨
        ∃ rws, hub.clients receiver = some rws ∧ (hub.sockets rws).readyState ≠ 1) →
      onMessage hub ws (.object (some "typing") (some receiver) isTyping claimed) =
        (hub, false)) := by
  refine ⟨?_, ?_⟩
  · intro rws hr hopen
    simp only [onMessage, hs, hr, hopen, if_true]
    refine ⟨trivial, rfl, by simp [sendNotice], ?_⟩
    intro w hw
    simp [sendNotice, Function.update, hw]
  · rintro (hnone | ⟨rws, hr, hclosed⟩)
    · simp [onMessage, hs, hnone]
    · simp [onMessage, hs, hr, hclosed]
/-- C18, witness: user 1 (handle 1) signals typing to user 2 (handle 2), claiming to be
user 9 in the frame; handle 2 receives one notice from user 1. -/
theorem typing_relay_witness :
    ((onMessage (onConnection demoVerify (onConnection demoVerify emptyHub 1 (some "alice")) 2
        (some "bob")) 1 (.object (some "typing") (some 2) (some true) (some 9))).1.sockets 2).sent =
      ((onConnection demoVerify (onConnection demoVerify emptyHub 1 (some "alice")) 2
        (some "bob")).sockets 2).sent ++ [{ senderId := 1, isTyping := some true }] :=
  ((typing_relay (onConnection demoVerify (onConnection demoVerify emptyHub 1 (some "alice")) 2
    (some "bob")) 1 1 2 (some true) (some 9) (by decide)).1 2 (by decide) (by decide)).2.2.1

/-- C19 on the demo chat: user 7 holds no admin role and sends a message whose body
carries `is_from_admin: true`; the row is stored with `is_from_admin = true`. -/
theorem sendMessage_trusts_body_flag :
    isAdmin demoChat 7 = false ∧
    (sendMessage 5 demoChat 7
      { message := some "hi", receiver_id := none, is_from_admin := some true }).1.chat_messages.map
        (fun cm => (cm.sender_id, cm.is_from_admin)) = [(7, false), (7, true)] := by
  decide

theorem sendMessage_flag (now : Nat) (db : ChatDb) (userId : Nat) (body : SendBody)
    (hmsg : strTruthy body.message = true) :
    ∃ row, sendMessage now db userId body =
        ({ db with chat_messages := db.chat_messages ++ [row], nextId := db.nextId + 1 },
          .created row) ∧
      row.sender_id = userId ∧
      (row.is_from_admin = true ↔ (isAdmin db userId = true ∨ body.is_from_admin = some true)) ∧
      (isAdmin db userId = false → body.is_from_admin ≠ some true →
        row.is_from_admin = false) := by
  refine ⟨{ id := db.nextId, sender_id := userId, receiver_id := body.receiver_id,
            message := body.message.getD "",
            is_from_admin := isAdmin db userId || body.is_from_admin.getD false || false,
            created_at := now },
    by simp only [sendMessage, hmsg, if_true], rfl, ?_, ?_⟩
  · cases h1 : isAdmin db userId <;> cases h2 : body.is_from_admin with
    | none => simp
    | some b => cases b <;> simp
  · intro h1 h2
    cases h3 : body.is_from_admin with
    | none => simp [h1]
    | some b =>
      cases b
      · simp [h1]
      · exact absurd h3 h2

theorem listMessages_messages (db : ChatDb) (userId : Nat) :
    (listMessages db userId).map (fun r => r.message) =
      (if isAdmin db userId then db.chat_messages
        else db.chat_messages.filter
          (fun cm => cm.sender_id == userId || cm.receiver_id == some userId)).insertionSort
        (fun a b => a.created_at ≤ b.created_at) := by
  unfold listMessages
  rw [List.map_map]
  exact List.map_id _
theorem insertionSort_created_sorted (l : List ChatMessage) :
    (l.insertionSort (fun a b => a.created_at ≤ b.created_at)).Pairwise
      (fun a b => a.created_at ≤ b.created_at) := by
  haveI : IsTotal ChatMessage (fun a b => a.created_at ≤ b.created_at) :=
    ⟨fun a b => Nat.le_total a.created_at b.created_at⟩
  haveI : IsTrans ChatMessage (fun a b => a.created_at ≤ b.created_at) :=
    ⟨fun _ _ _ h1 h2 => Nat.le_trans h1 h2⟩
  exact List.sorted_insertionSort (fun a b : ChatMessage => a.created_at ≤ b.created_at) l
/-- C20: a message sent with `receiver_id = null` is stored, and afterwards the list
of every caller with the admin role contains it, while the list of a caller without
the admin role who is not the sender does not; in general the list of a caller without
the admin role consists of exactly the stored messages whose `sender_id` or
`receiver_id` is the caller, by ascending `created_at`. -/
theorem chat_round_trip (now : Nat) (db : ChatDb) (sender : Nat) (body : SendBody)
    (hmsg : strTruthy body.message = true) (hrecv : body.receiver_id = none) :
    (∃ row, (sendMessage now db sender body).2 = .created row ∧
      row.sender_id = sender ∧ row.receiver_id = none ∧
      (∀ a, isAdmin (sendMessage now db sender body).1 a = true →
        row ∈ (listMessages (sendMessage now db sender body).1 a).map (fun r => r.message)) ∧
      (∀ c, isAdmin (sendMessage now db sender body).1 c = false → c ≠ sender →
        row ∉ (listMessages (sendMessage now db sender body).1 c).map (fun r => r.message))) ∧
    (∀ (d : ChatDb) (c : Nat), isAdmin d c = false →
      ((listMessages d c).map (fun r => r.message)).Perm
        (d.chat_messages.filter
          (fun cm => cm.sender_id == c || cm.receiver_id == some c)) ∧
      ((listMessages d c).map (fun r => r.message)).Pairwise
        (fun a b => a.created_at ≤ b.created_at)) := by
  refine ⟨?_, ?_⟩
  · refine ⟨{ id := db.nextId, sender_id := sender, receiver_id := body.receiver_id,
              message := body.message.getD "",
              is_from_admin := isAdmin db sender || body.is_from_admin.getD false || false,
              created_at := now }, ?_, rfl, hrecv, ?_, ?_⟩
    · simp only [sendMessage, hmsg, if_true]
    · intro a ha
      rw [listMessages_messages, ha]
      simp only [if_true]
      apply (List.perm_insertionSort _ _).mem_iff.mpr
      simp [sendMessage, hmsg]
    · intro c hc hne
      rw [listMessages_messages, hc]
      simp only [Bool.false_eq_true, if_false]
      intro hmem
      have hmem' := (List.perm_insertionSort _ _).mem_iff.mp hmem
      have hp := (List.mem_filter.mp hmem').2
      simp [hrecv] at hp
      exact hne hp.symm
  · intro d c hc
    rw [listMessages_messages, hc]
    simp only [Bool.false_eq_true, if_false]
    exact ⟨List.perm_insertionSort _ _, insertionSort_created_sorted _⟩
/-- C20, witness: user 7 sends `hi` to no receiver in the demo chat at time 5. -/
theorem chat_round_trip_witness :
    ∃ row, (sendMessage 5 demoChat 7
        { message := some "hi", receiver_id := none, is_from_admin := none }).2 = .created row ∧
      row.sender_id = 7 ∧ row.receiver_id = none ∧
      (∀ a, isAdmin (sendMessage 5 demoChat 7
          { message := some "hi", receiver_id := none, is_from_admin := none }).1 a = true →
        row ∈ (listMessages (sendMessage 5 demoChat 7
          { message := some "hi", receiver_id := none, is_from_admin := none }).1 a).map
            (fun r => r.message)) ∧
      (∀ c, isAdmin (sendMessage 5 demoChat 7
          { message := some "hi", receiver_id := none, is_from_admin := none }).1 c = false →
        c ≠ 7 →
        row ∉ (listMessages (sendMessage 5 demoChat 7
          { message := some "hi", receiver_id := none, is_from_admin := none }).1 c).map
            (fun r => r.message)) :=
  (chat_round_trip 5 demoChat 7 { message := some "hi", receiver_id := none, is_from_admin := none }
    (by decide) rfl).1

theorem is_read_not_column : chatMessagesColumns.contains "is_read" = false := by
  decide

theorem countChat_is_read (db : ChatDb) (value : Bool) (conds : List ChatCond) :
    countChat db (.boolEq "is_read" value :: conds) = none := by
  have h : ChatCond.valid (.boolEq "is_read" value) = false := is_read_not_column
  unfold countChat
  rw [List.all_cons, h, Bool.false_and]
  rfl

theorem updateChat_is_read (db : ChatDb) (value : Bool) (conds : List ChatCond) :
    updateChat db "is_read" value conds = none := by
  unfold updateChat
  rw [is_read_not_column, Bool.false_and]
  rfl

theorem unreadCount_serverError (db : ChatDb) (userId : Nat) :
    unreadCount db userId = .serverError := by
  unfold unreadCount
  rw [countChat_is_read]

theorem markRead_serverError (db : ChatDb) (userId : Nat) (sender_id : Option IdText)
    (h : isAdmin db userId = false ∨ sender_id ≠ none) :
    markRead db userId sender_id = (db, .serverError) := by
  unfold markRead
  cases ha : isAdmin db userId with
  | false => simp [updateChat_is_read]
  | true =>
    cases sender_id with
    | none =>
      rcases h with h | h
      · rw [ha] at h; cases h
      · exact absurd rfl h
    | some sender => simp [updateChat_is_read]

/-- C21 on the demo chat: the table `chat_messages` has no column `is_read`, the
statement of `GET /chat/unread` names it, and the answer is the `500` of the `catch`
block for the administrator (user 1), for whom one message of a customer is waiting,
and for the customer (user 7) alike. -/
theorem unreadCount_missing_column :
    chatMessagesColumns.contains "is_read" = false ∧
    isAdmin demoChat 1 = true ∧
    (demoChat.chat_messages.filter (fun cm => cm.is_from_admin == false)).length = 1 ∧
    unreadCount demoChat 1 = .serverError ∧
    isAdmin demoChat 7 = false ∧
    unreadCount demoChat 7 = .serverError := by
  decide

/-- C22 on the demo chat: the administrator (user 1) is refused with the `400` when the
body has no `sender_id`, the database staying as it was; with `sender_id` 7 the
statement names the column `is_read`, which `chat_messages` does not have, and the
answer is the `500` of the `catch` block, no message being marked. -/
theorem markRead_missing_column :
    chatMessagesColumns.contains "is_read" = false ∧
    isAdmin demoChat 1 = true ∧
    markRead demoChat 1 none = (demoChat, .senderRequired) ∧
    markRead demoChat 1 (some 7) = (demoChat, .serverError) := by
  refine ⟨by decide, by decide, ?_, ?_⟩
  · have h : isAdmin demoChat 1 = true := by decide
    simp [markRead, h]
  · exact markRead_serverError demoChat 1 (some 7) (Or.inr (by simp))

theorem insertionSort_mem_filter {α : Type} (r : α → α → Prop) [DecidableRel r] (p : α → Bool)
    (l : List α) (a : α) (h : a ∈ (l.filter p).insertionSort r) : p a = true :=
  (List.mem_filter.mp ((List.perm_insertionSort r (l.filter p)).mem_iff.mp h)).2

/-- C23, counterexample: the path `GET /orders/abc`, whose id is no UUID text and so
is the id of no order, is answered with the `500` of the `catch` block, not with
`notFound`. -/
theorem getOrder_malformed_id_is_server_error :
    (∀ o ∈ demoLedger.store.orders, IdText.uuid o.id ≠ IdText.malformed) ∧
    getOrder [] demoLedger.store 7 .malformed = .serverError ∧
    getOrder [] demoLedger.store 7 .malformed ≠ .notFound := by
  decide

/-- C23, amended: `GET /orders/:id` answers an existing order, with its item rows, when
the caller is its owner or holds the admin role, and with `forbidden` otherwise; an id
in UUID syntax that selects no order gives `notFound`, an id that is no UUID text gives
`500`; and every order in the list `GET /orders` gives to a caller without the admin
role has the caller as `user_id`. -/
theorem order_read_access (roles : List UserRole) (s : Store) (caller id : Nat) :
    (∀ o tl, s.orders.filter (fun x => x.id == id) = o :: tl →
      ((o.user_id = caller ∨ hasAdminRole roles caller = true) →
        getOrder roles s caller (.uuid id) =
          .ok o (s.order_items.filter (fun r => r.order_id == id))) ∧
      (o.user_id ≠ caller → hasAdminRole roles caller = false →
        getOrder roles s caller (.uuid id) = .forbidden)) ∧
    (s.orders.filter (fun x => x.id == id) = [] →
      getOrder roles s caller (.uuid id) = .notFound) ∧
    getOrder roles s caller .malformed = .serverError ∧
    (hasAdminRole roles caller = false →
      ∀ row ∈ listOrders roles s caller, row.1.user_id = caller) := by
  refine ⟨?_, ?_, rfl, ?_⟩
  · intro o tl hsel
    refine ⟨?_, ?_⟩
    · rintro (h | h)
      · simp [getOrder, hsel, h]
      · simp [getOrder, hsel, h]
    · intro h1 h2
      simp [getOrder, hsel, h1, h2]
  · intro hsel
    simp [getOrder, hsel]
  · intro hna row hrow
    simp only [listOrders, hna, Bool.false_eq_true, if_false] at hrow
    obtain ⟨o, ho, rfl⟩ := List.mem_map.mp hrow
    have := insertionSort_mem_filter _ _ _ _ ho
    simpa using this

/-- C23, witness: user 8 is not the owner of `demoOrder` and holds no role. -/
theorem order_read_access_witness :
    getOrder [] demoLedger.store 8 3 = .forbidden :=
  ((order_read_access [] demoLedger.store 8 3).1 demoOrder [] (by decide)).2 (by decide)
    (by decide)
/-- C26: a frame the relay has nothing to do with (malformed JSON, JSON that is no
object, an unknown `type`, a typing frame without `receiverId`) leaves the whole hub as
it was, registry and handles included, whether or not the `catch` block ran; so the
sender stays registered, no handle is closed, and any following frame is handled as if
the bad one had not been received. -/
theorem ignored_frame_changes_nothing (hub : Hub) (ws : Nat) (bad : Inbound)
    (hbad : bad.isIgnored = true) :
    (onMessage hub ws bad).1 = hub ∧
    (∀ u, (onMessage hub ws bad).1.clients u = hub.clients u) ∧
    (∀ w, ((onMessage hub ws bad).1.sockets w).closed = (hub.sockets w).closed) ∧
    (∀ next, onMessage (onMessage hub ws bad).1 ws next = onMessage hub ws next) := by
  have h : (onMessage hub ws bad).1 = hub := by
    unfold onMessage
    cases hh : (hub.sockets ws).handlers with
    | none => rfl
    | some userId =>
      cases bad with
      | malformed => rfl
      | nullValue => rfl
      | other => rfl
      | object type receiverId isTyping senderId =>
        simp only [Inbound.isIgnored, Bool.or_eq_true, bne_iff_ne, ne_eq, beq_iff_eq] at hbad
        rcases hbad with hb | hb
        · simp [hb]
        · subst hb
          by_cases ht : type = some "typing" <;> simp [ht]
  refine ⟨h, ?_, ?_, ?_⟩
  · intro u; rw [h]
  · intro w; rw [h]
  · intro next; rw [h]
/-- C26, witness: user 1 sends malformed JSON on handle 1 and stays registered. -/
theorem ignored_frame_changes_nothing_witness :
    (onMessage (onConnection demoVerify emptyHub 1 (some "alice")) 1 .malformed).1.clients 1 =
      (onConnection demoVerify emptyHub 1 (some "alice")).clients 1 :=
  (ignored_frame_changes_nothing (onConnection demoVerify emptyHub 1 (some "alice")) 1
    .malformed rfl).2.1 1

theorem storeAfterWrites_coupons (s : Store) (order_id : Nat) (items : List Item) (d : Nat) :
    (storeAfterWrites s order_id items d).coupons = s.coupons := by
  unfold storeAfterWrites
  dsimp only
  split
  · rfl
  · split <;> rfl
theorem commitOutcome_coupons (fault : Option Nat) (s : Store) (order : Order)
    (items : List Item) : (commitOutcome fault s order items).1.coupons = s.coupons := by
  unfold commitOutcome
  match fault with
  | none => rfl
  | some 0 => rfl
  | some (d + 1) =>
    by_cases hd : d < 2 * items.length
    · simp only [hd, if_true]
      rw [storeAfterWrites_coupons]
      rfl
    · simp only [hd, if_false]
      rfl
theorem place_coupons (now : Nat) (fault : Option Nat) (s : Store) (req : PlaceRequest) :
    (place now fault s req).1.coupons = s.coupons := by
  cases hfo : firstOffence s req.items with
  | some e => rw [place_invalid now fault s req e hfo]
  | none =>
    obtain ⟨items, hit, hne, hv⟩ := firstOffence_none s req.items hfo
    have hall := findSome_none_resolved s items hv
    rw [place_valid now fault s req items hit hne hv]
    cases ha : req.shipping_address with
    | none => rw [commitOrder_missing_field now fault s req items _ (Or.inl ha)]
    | some a =>
      cases hp : req.phone with
      | none => rw [commitOrder_missing_field now fault s req items _ (Or.inr hp)]
      | some p =>
        rw [commitOrder_eq now fault s req items _ a p ha hp (fun i hi => (hall i hi).1)]
        exact commitOutcome_coupons fault s _ items
/-- C28: a placement, successful or not, with or without a coupon code, and whichever
write may fail, leaves the `coupons` table exactly as it was, `used_count` included;
so does any sequence of placements. -/
theorem place_keeps_coupons (now : Nat) (fault : Option Nat) (s : Store) (req : PlaceRequest) :
    (place now fault s req).1.coupons = s.coupons ∧
    (∀ reqs : List PlaceRequest,
      (reqs.foldl (fun st r => (place now fault st r).1) s).coupons = s.coupons) := by
  refine ⟨place_coupons now fault s req, ?_⟩
  intro reqs
  induction reqs generalizing s with
  | nil => rfl
  | cons r rest ih =>
    simp only [List.foldl_cons]
    rw [ih, place_coupons]

theorem applyCoupon_snd (s : Store) (now : Nat) (coupon_code : Option String) (total : ℚ) :
    (applyCoupon s now coupon_code total).2 = 0 ∨
      ∃ coupon ∈ s.coupons, (applyCoupon s now coupon_code total).2 = discountOf coupon total := by
  unfold applyCoupon
  split
  · cases hsel : selectCoupon s now (coupon_code.getD "") with
    | nil => exact Or.inl rfl
    | cons coupon tl =>
      have hmem : coupon ∈ s.coupons := by
        have : coupon ∈ selectCoupon s now (coupon_code.getD "") := by rw [hsel]; simp
        exact (List.mem_filter.mp this).1
      by_cases hmin : toNumber? coupon.min_purchase_amount ≤ total
      · right
        exact ⟨coupon, hmem, by simp [hmin]⟩
      · left
        simp [hmin]
  · exact Or.inl rfl
theorem discountOf_percentage (coupon : Coupon) (total : ℚ) (p : Int)
    (hp : coupon.discount_percentage = some p) (h0 : p ≠ 0) :
    discountOf coupon total = total * p / 100 := by
  simp [discountOf, hp, intTruthy, h0, mul_div_assoc]

/-- C29: when every coupon of the store obeys the constraint of the table
(`discount_percentage` an integer with `0 < discount_percentage ≤ 100`) and the cart
has a subtotal `≥ 0`, the discount `d` a successful placement computes has
`0 ≤ d ≤ subtotal`, so that the total `subtotal - d` it computes lies between 0 and the
subtotal; the order row, which stores both rounded to two decimals, has
`0 ≤ discount_amount ≤ subtotal` and `0 ≤ total_amount ≤ subtotal` as well. When the
coupon applies, the discount computed is the percentage discount, whatever the flat
amount of the coupon. -/
theorem schema_coupon_discount_bounds (now : Nat) (fault : Option Nat) (s s' : Store)
    (req : PlaceRequest) (items : List Item) (order : Order)
    (hplace : place now fault s req = (s', .created order))
    (hit : req.items = some items)
    (hschema : ∀ c ∈ s.coupons, ∃ p : Int, c.discount_percentage = some p ∧ 0 < p ∧ p ≤ 100)
    (hsub : 0 ≤ subtotal s items) :
    0 ≤ order.discount_amount ∧ order.discount_amount ≤ subtotal s items ∧
    0 ≤ order.total_amount ∧ order.total_amount ≤ subtotal s items ∧
    order.discount_amount =
      roundCents (applyCoupon s now req.coupon_code (subtotal s items)).2 ∧
    order.total_amount =
      roundCents (subtotal s items - (applyCoupon s now req.coupon_code (subtotal s items)).2) ∧
    0 ≤ (applyCoupon s now req.coupon_code (subtotal s items)).2 ∧
    (applyCoupon s now req.coupon_code (subtotal s items)).2 ≤ subtotal s items ∧
    (∀ code coupon tl, req.coupon_code = some code → code ≠ "" →
      selectCoupon s now code = coupon :: tl →
      toNumber? coupon.min_purchase_amount ≤ subtotal s items →
      ∃ p : Int, coupon.discount_percentage = some p ∧
        (applyCoupon s now req.coupon_code (subtotal s items)).2 =
          subtotal s items * p / 100) := by
  obtain ⟨items', a, ph, hit', _, _, _, _, ho, _⟩ := place_created now fault s s' req order hplace
  have hii : items' = items := Option.some.inj (hit'.symm.trans hit)
  subst hii
  have hd : order.discount_amount =
      roundCents (applyCoupon s now req.coupon_code (subtotal s items')).2 := by
    rw [ho]; rfl
  have ht : order.total_amount = roundCents (subtotal s items' -
      (applyCoupon s now req.coupon_code (subtotal s items')).2) := by
    rw [← applyCoupon_fst, ho]; rfl
  have hbounds : 0 ≤ (applyCoupon s now req.coupon_code (subtotal s items')).2 ∧
      (applyCoupon s now req.coupon_code (subtotal s items')).2 ≤ subtotal s items' := by
    rcases applyCoupon_snd s now req.coupon_code (subtotal s items') with h0 | ⟨c, hc, hcd⟩
    · rw [h0]
      exact ⟨le_refl 0, hsub⟩
    · obtain ⟨p, hp, hp0, hp100⟩ := hschema c hc
      rw [hcd, discountOf_percentage c _ p hp (ne_of_gt hp0)]
      have hpq0 : (0 : ℚ) ≤ (p : ℚ) := by exact_mod_cast le_of_lt hp0
      have hpq1 : (p : ℚ) ≤ 100 := by exact_mod_cast hp100
      constructor
      · positivity
      · rw [div_le_iff₀ (by norm_num : (0 : ℚ) < 100)]
        nlinarith
  have hmono : ∀ q : ℚ, q ≤ subtotal s items' → roundCents q ≤ subtotal s items' := by
    intro q hq
    have := roundCents_mono q _ hq
    rwa [roundCents_subtotal] at this
  refine ⟨?_, ?_, ?_, ?_, hd, ht, hbounds.1, hbounds.2, ?_⟩
  · rw [hd]; exact roundCents_nonneg _ hbounds.1
  · rw [hd]; exact hmono _ hbounds.2
  · rw [ht]; exact roundCents_nonneg _ (by linarith [hbounds.2])
  · rw [ht]; exact hmono _ (by linarith [hbounds.1])
  · intro code coupon tl hcode hne hsel hmin
    have hmem : coupon ∈ s.coupons := by
      have : coupon ∈ selectCoupon s now code := by rw [hsel]; simp
      exact (List.mem_filter.mp this).1
    obtain ⟨p, hp, hp0, _⟩ := hschema coupon hmem
    refine ⟨p, hp, ?_⟩
    rw [← discountOf_percentage coupon _ p hp (ne_of_gt hp0)]
    simp [applyCoupon, hcode, strTruthy, hne, hsel, hmin]

/-- C29, witness: the coupon `SAVE10` on a cart of subtotal 100 in the demo store,
whose coupons have the percentages 10 and 20. -/
theorem schema_coupon_discount_bounds_witness :
    0 ≤ (newOrder demoStore 5 (demoRequest [⟨1, 1⟩] (some "SAVE10")) "Main St" "255" 90
        10).discount_amount ∧
    (newOrder demoStore 5 (demoRequest [⟨1, 1⟩] (some "SAVE10")) "Main St" "255" 90
        10).discount_amount ≤ subtotal demoStore [⟨1, 1⟩] :=
  (fun h => ⟨h.1, h.2.1⟩)
    (schema_coupon_discount_bounds 5 none demoStore
      (place 5 none demoStore (demoRequest [⟨1, 1⟩] (some "SAVE10"))).1
      (demoRequest [⟨1, 1⟩] (some "SAVE10")) [⟨1, 1⟩]
      (newOrder demoStore 5 (demoRequest [⟨1, 1⟩] (some "SAVE10")) "Main St" "255" 90 10)
      (by
        simp [place, demoStore, demoCouponSave, demoCouponBig, demoRequest, priceItems,
          selectProduct, commitOrder, applyCoupon, strTruthy, writeItems, insertOrder,
          insertOrderItem, updateStock, newOrder, selectCoupon, discountOf, intTruthy, toNumber?,
          unitPrice, jsOr, JsNum.toNumber, Decimal2.toNumber, Decimal2.truthy, IdText.rowId]
        norm_num)
      rfl
      (by
        intro c hc
        simp only [demoStore, List.mem_cons, List.mem_singleton, List.not_mem_nil, or_false] at hc
        rcases hc with rfl | rfl
        · exact ⟨10, rfl, by decide, by decide⟩
        · exact ⟨20, rfl, by decide, by decide⟩)
      (by
        simp [subtotal, lineAmount, productOf, selectProduct, demoStore, unitPrice, jsOr,
          Decimal2.toNumber]
        norm_num))

theorem effectivePrice_nonneg (product : Product)
    (h : 0 ≤ product.price.toNumber ∧ ∀ d, product.discount_price = some d → 0 ≤ d.toNumber) :
    0 ≤ effectivePrice product := by
  unfold effectivePrice
  match hd : product.discount_price with
  | none => exact h.1
  | some d => exact h.2 _ hd

theorem productOf_mem (s : Store) (item : Item) (product : Product)
    (h : productOf s item = some product) : product ∈ s.products := by
  unfold productOf at h
  cases hid : item.product_id with
  | malformed => simp [hid] at h
  | uuid id =>
    simp only [hid] at h
    exact (List.mem_filter.mp (List.mem_of_mem_head? h)).1

theorem effectiveLinePrice_nonneg (s : Store) (item : Item)
    (h : ∀ p ∈ s.products,
      0 ≤ p.price.toNumber ∧ ∀ d, p.discount_price = some d → 0 ≤ d.toNumber) :
    0 ≤ effectiveLinePrice s item := by
  unfold effectiveLinePrice
  cases hp : productOf s item with
  | none => exact le_refl 0
  | some product =>
    exact effectivePrice_nonneg product (h product (productOf_mem s item product hp))

theorem subtotal_nonneg (s : Store) (items : List Item)
    (h : ∀ p ∈ s.products,
      0 ≤ p.price.toNumber ∧ ∀ d, p.discount_price = some d → 0 ≤ d.toNumber)
    (hq : ∀ i ∈ items, 0 ≤ i.quantity) : 0 ≤ subtotal s items := by
  unfold subtotal
  apply List.sum_nonneg
  intro x hx
  obtain ⟨i, hi, rfl⟩ := List.mem_map.mp hx
  rw [lineAmount_eq]
  have hqi : (0 : ℚ) ≤ (i.quantity : ℚ) := by exact_mod_cast hq i hi
  exact mul_nonneg (effectiveLinePrice_nonneg s i h) hqi
theorem qtySum_nonneg (items : List Item) (product_id : Nat)
    (hq : ∀ i ∈ items, 0 ≤ i.quantity) : 0 ≤ qtySum items product_id := by
  unfold qtySum
  apply List.sum_nonneg
  intro x hx
  obtain ⟨i, hi, rfl⟩ := List.mem_map.mp hx
  exact hq i (List.mem_filter.mp hi).1

/-- C30, counterexample: in the demo store, whose prices are not negative, the cart
of one line with quantity `-1` for product 1 is accepted; the stock of product 1 rises
from 1 to 2 and the subtotal is `-100`. A line of quantity 0 is accepted as well. -/
theorem place_negative_quantity_accepted :
    (place 5 none demoStore (demoRequest [⟨1, -1⟩] none)).2.isCreated = true ∧
    demoStore.products.map (fun p => (p.id, p.stock)) = [(1, 1), (2, 4)] ∧
    (place 5 none demoStore (demoRequest [⟨1, -1⟩] none)).1.products.map
      (fun p => (p.id, p.stock)) = [(1, 2), (2, 4)] ∧
    subtotal demoStore [⟨1, -1⟩] = -100 ∧
    (place 5 none demoStore (demoRequest [⟨1, 0⟩] none)).2.isCreated = true := by
  refine ⟨by decide, by decide, by decide, ?_, by decide⟩
  simp [subtotal, lineAmount, productOf, selectProduct, demoStore, unitPrice, jsOr,
    Decimal2.toNumber]
  norm_num

/-- C30, amended: the handler accepts lines of zero and of negative quantity; for a
store with non-negative prices and an accepted cart all of whose quantities are
`≥ 0`, every product row afterwards is the row before with a stock that is less than
or equal to the former stock, and the subtotal is `≥ 0`. -/
theorem place_nonneg_quantities_monotone (now : Nat) (fault : Option Nat) (s s' : Store)
    (req : PlaceRequest) (items : List Item) (order : Order)
    (hplace : place now fault s req = (s', .created order))
    (hit : req.items = some items)
    (hprices : ∀ p ∈ s.products,
      0 ≤ p.price.toNumber ∧ ∀ d, p.discount_price = some d → 0 ≤ d.toNumber)
    (hq : ∀ i ∈ items, 0 ≤ i.quantity) :
    List.Forall₂ (fun p p' => p'.id = p.id ∧ p'.price = p.price ∧
      p'.discount_price = p.discount_price ∧ p'.stock ≤ p.stock) s.products s'.products ∧
    0 ≤ subtotal s items := by
  obtain ⟨items', a, ph, hit', _, _, _, _, _, hs⟩ := place_created now fault s s' req order hplace
  have hii : items' = items := Option.some.inj (hit'.symm.trans hit)
  subst hii
  refine ⟨?_, subtotal_nonneg s items' hprices hq⟩
  rw [hs, finalStore_insertOrder]
  simp only
  rw [List.forall₂_map_right_iff]
  apply List.forall₂_same.mpr
  intro p _
  refine ⟨rfl, rfl, rfl, ?_⟩
  have := qtySum_nonneg items' p.id hq
  simp only
  omega
/-- C30, witness: one unit of product 1 of the demo store. -/
theorem place_nonneg_quantities_monotone_witness :
    List.Forall₂ (fun p p' => p'.id = p.id ∧ p'.price = p.price ∧
      p'.discount_price = p.discount_price ∧ p'.stock ≤ p.stock) demoStore.products
      (place 5 none demoStore (demoRequest [⟨1, 1⟩] none)).1.products ∧
    0 ≤ subtotal demoStore [⟨1, 1⟩] :=
  place_nonneg_quantities_monotone 5 none demoStore
    (place 5 none demoStore (demoRequest [⟨1, 1⟩] none)).1 (demoRequest [⟨1, 1⟩] none) [⟨1, 1⟩]
    (newOrder demoStore 5 (demoRequest [⟨1, 1⟩] none) "Main St" "255" 100 0)
    (by
      simp [place, demoStore, demoRequest, priceItems, selectProduct, commitOrder, applyCoupon,
        strTruthy, writeItems, insertOrder, insertOrderItem, updateStock, newOrder, unitPrice,
        jsOr, Decimal2.toNumber, Decimal2.truthy, IdText.rowId]
      norm_num)
    rfl
    (by
      intro p hp
      simp only [demoStore, List.mem_cons, List.mem_singleton, List.not_mem_nil, or_false] at hp
      rcases hp with rfl | rfl
      · exact ⟨by norm_num [Decimal2.toNumber], by intro d hd; cases hd⟩
      · exact ⟨by norm_num [Decimal2.toNumber], by intro d hd; cases hd⟩)
    (by decide)

/-- C25, counterexample: at time 5 the coupon `SOON`, valid from time 50 on, is
accepted by `POST /coupons/validate`, and a placement with its code stores the
discount 50 on a subtotal of 100. -/
theorem coupon_before_valid_from_applies :
    (selectCoupon demoStoreSoon 5 "SOON").map (fun c => (c.valid_from, c.valid_until)) =
      [(50, 100)] ∧
    validate demoStoreSoon 5 "SOON" 100 = .ok demoCouponSoon ∧
    (place 5 none demoStoreSoon (demoRequest [⟨1, 1⟩] (some "SOON"))).1.orders.map
      (fun o => (o.discount_amount, o.total_amount)) = [(50, 50)] := by
  have h50 : roundCents 50 = 50 := roundCents_twoDecimals _ ⟨5000, by norm_num⟩
  refine ⟨by decide, ?_, ?_⟩
  · simp [validate, selectCoupon, demoStoreSoon, demoStore, demoCouponSave, demoCouponBig,
      demoCouponSoon, toNumber?, JsNum.toNumber, intTruthy]
  · simp [place, demoStoreSoon, demoStore, demoCouponSave, demoCouponBig, demoCouponSoon,
      demoRequest, priceItems, selectProduct, commitOrder, applyCoupon, strTruthy, writeItems,
      insertOrder, insertOrderItem, updateStock, newOrder, selectCoupon, discountOf, intTruthy,
      toNumber?, unitPrice, jsOr, JsNum.toNumber, Decimal2.toNumber, Decimal2.truthy,
      IdText.rowId]
    norm_num [h50]

/-- C25, amended: a coupon is looked up by its code among the active coupons whose
`valid_until` lies after the current time, and `valid_from` is not consulted: such a
coupon, also when its `valid_from` is later than the current time, is accepted by
coupon validation (minimum purchase reached, usage cap not reached) and gets its
discount in order placement (minimum purchase reached), stored to two decimals. -/
theorem coupon_window_is_valid_until_only (s : Store) (now : Nat) (code : String) :
    (∀ c, c ∈ selectCoupon s now code ↔
      c ∈ s.coupons ∧ c.code = code ∧ c.is_active = some true ∧ now < c.valid_until) ∧
    (∀ coupon tl amount, selectCoupon s now code = coupon :: tl →
      toNumber? coupon.min_purchase_amount ≤ amount →
      (intTruthy coupon.max_uses = false ∨ coupon.used_count.getD 0 < coupon.max_uses.getD 0) →
      validate s now code amount = .ok coupon) ∧
    (∀ fault s' req items order coupon tl,
      place now fault s req = (s', .created order) → req.items = some items →
      req.coupon_code = some code → code ≠ "" →
      selectCoupon s now code = coupon :: tl →
      toNumber? coupon.min_purchase_amount ≤ subtotal s items →
      order.discount_amount = roundCents (discountOf coupon (subtotal s items))) := by
  refine ⟨?_, ?_, ?_⟩
  · intro c
    simp [selectCoupon, List.mem_filter, and_assoc]
  · intro coupon tl amount hsel hmin hcap
    simp only [validate, hsel, not_lt.mpr hmin, if_false]
    rcases hcap with h | h
    · simp [h]
    · simp [not_le.mpr h]
  · intro fault s' req items order coupon tl hplace hit hcode hne hsel hmin
    obtain ⟨items', a, p, hit', _, _, _, _, ho, _⟩ := place_created now fault s s' req order hplace
    have hii : items' = items := Option.some.inj (hit'.symm.trans hit)
    subst hii
    rw [ho]
    simp [newOrder, applyCoupon, hcode, strTruthy, hne, hsel, hmin]

/-- C25, witness: the coupon `SOON` at time 5 with an amount of 100. -/
theorem coupon_window_is_valid_until_only_witness :
    validate demoStoreSoon 5 "SOON" 100 = .ok demoCouponSoon :=
  (coupon_window_is_valid_until_only demoStoreSoon 5 "SOON").2.1 demoCouponSoon [] 100
    (by decide) (by simp [demoCouponSoon, toNumber?, JsNum.toNumber]) (Or.inl rfl)

theorem matchesPhoneFormat_iff (s : String) :
    matchesPhoneFormat s = true ↔
      ∃ digits, s.toList = '+' :: digits ∧ (∀ c ∈ digits, jsDigit c = true) ∧
        6 ≤ digits.length ∧ digits.length ≤ 15 := by
  unfold matchesPhoneFormat
  constructor
  · intro h
    split at h
    · rename_i digits hs
      simp only [Bool.and_eq_true, List.all_eq_true, decide_eq_true_eq] at h
      exact ⟨digits, hs, h.1.1, h.1.2, h.2⟩
    · cases h
  · rintro ⟨digits, hs, hd, h6, h15⟩
    rw [hs]
    simp only [Bool.and_eq_true, List.all_eq_true, decide_eq_true_eq]
    exact ⟨⟨hd, h6⟩, h15⟩
theorem digitsOnly_of_format (s : String) (digits : List Char)
    (hs : s.toList = '+' :: digits) (hd : ∀ c ∈ digits, jsDigit c = true) :
    digitsOnly s = String.mk digits := by
  unfold digitsOnly
  rw [hs]
  have hplus : jsDigit '+' = false := by decide
  simp only [List.filter_cons, hplus, Bool.false_eq_true, if_false]
  congr 1
  exact List.filter_eq_self.mpr hd
theorem allowlisted_phone_iff (s : String) (digits : List Char)
    (hs : s.toList = '+' :: digits) :
    String.mk digits = "255684868946" ↔ s = "+255684868946" := by
  have hlit : "+255684868946".toList = '+' :: "255684868946".toList := by decide
  constructor
  · intro he
    have hl : digits = "255684868946".toList := congrArg String.toList he
    apply String.ext
    show s.toList = "+255684868946".toList
    rw [hs, hl, hlit]
  · intro he
    rw [he, hlit] at hs
    have hl : "255684868946".toList = digits := (List.cons.inj hs).2
    rw [← hl]
    rfl
/-- C27: every accepted signup stores the normalized phone, which is `+` followed by
6 to 15 digits, and adds exactly one role row for the new user: `admin` if and only if
the digits of the normalized phone are `255684868946`, that is if and only if the
phone is `+255684868946`, and `customer` otherwise; a body whose normalized phone does
not have that form is refused with a `400` and changes nothing. -/
theorem signup_role_by_allowlist (hash : String → String) (sign : Nat → String → String)
    (db : AuthDb) (body : SignupBody) :
    (∀ db' token id phone, signup hash sign db body = (db', .created token id phone) →
      phone = normalizePhone ((finalPhone body).getD "") ∧
      (∃ digits, phone.toList = '+' :: digits ∧ (∀ c ∈ digits, jsDigit c = true) ∧
        6 ≤ digits.length ∧ digits.length ≤ 15) ∧
      db'.users = db.users ++
        [{ id := id, phone := phone, password_hash := hash (body.password.getD "") }] ∧
      (∃ role, db'.user_roles = db.user_roles ++ [{ user_id := id, role := role }] ∧
        (role = AppRole.admin ↔ digitsOnly phone = "255684868946") ∧
        (role = AppRole.admin ↔ phone = "+255684868946") ∧
        (role ≠ AppRole.admin → role = AppRole.customer))) ∧
    (matchesPhoneFormat (normalizePhone ((finalPhone body).getD "")) = false →
      ∃ e, signup hash sign db body = (db, .badRequest e)) := by
  refine ⟨?_, ?_⟩
  · intro db' token id phone h
    unfold signup at h
    split at h
    · simp at h
    split at h
    · simp at h
    split at h
    · simp at h
    split at h
    · simp at h
    dsimp only at h
    split at h
    · simp at h
    split at h
    · simp at h
    rename_i hfmt _
    simp only [Prod.mk.injEq, SignupResponse.created.injEq] at h
    obtain ⟨hdb, _, hid, hphone⟩ := h
    subst hid hphone
    have hfmt' : matchesPhoneFormat (normalizePhone ((finalPhone body).getD "")) = true := by
      simpa using hfmt
    obtain ⟨digits, hs, hd, h6, h15⟩ := (matchesPhoneFormat_iff _).mp hfmt'
    have hdig := digitsOnly_of_format _ digits hs hd
    refine ⟨rfl, ⟨digits, hs, hd, h6, h15⟩, by rw [← hdb], ?_⟩
    refine ⟨if digitsOnly (normalizePhone ((finalPhone body).getD "")) = "255684868946"
      then AppRole.admin else AppRole.customer, by rw [← hdb], ?_, ?_, ?_⟩
    · by_cases hc : digitsOnly (normalizePhone ((finalPhone body).getD "")) = "255684868946"
      · simp [hc]
      · simp [hc]
    · have hiff : digitsOnly (normalizePhone ((finalPhone body).getD "")) = "255684868946" ↔
          normalizePhone ((finalPhone body).getD "") = "+255684868946" := by
        rw [hdig]
        exact allowlisted_phone_iff _ digits hs
      by_cases hc : digitsOnly (normalizePhone ((finalPhone body).getD "")) = "255684868946"
      · rw [if_pos hc]
        exact ⟨fun _ => hiff.mp hc, fun _ => rfl⟩
      · rw [if_neg hc]
        exact ⟨fun h => (by cases h), fun e => absurd (hiff.mpr e) hc⟩
    · intro hne
      by_cases hc : digitsOnly (normalizePhone ((finalPhone body).getD "")) = "255684868946"
      · simp [hc] at hne
      · simp [hc]
  · intro hfmt
    unfold signup
    split
    · exact ⟨_, rfl⟩
    split
    · exact ⟨_, rfl⟩
    split
    · exact ⟨_, rfl⟩
    split
    · exact ⟨_, rfl⟩
    dsimp only
    rw [if_pos hfmt]
    exact ⟨_, rfl⟩
/-- C27, witness: the signup of `+255 684-868-946` on the empty database; the stored
phone is `+255684868946` and the one role row added is `admin`. -/
theorem signup_role_by_allowlist_witness :
    ∃ role, (signup id (fun _ p => p) emptyAuthDb (demoSignup "+255 684-868-946")).1.user_roles =
        emptyAuthDb.user_roles ++ [{ user_id := 1, role := role }] ∧
      (role = AppRole.admin ↔ digitsOnly "+255684868946" = "255684868946") ∧
      (role = AppRole.admin ↔ "+255684868946" = "+255684868946") ∧
      (role ≠ AppRole.admin → role = AppRole.customer) :=
  ((signup_role_by_allowlist id (fun _ p => p) emptyAuthDb
    (demoSignup "+255 684-868-946")).1
    (signup id (fun _ p => p) emptyAuthDb (demoSignup "+255 684-868-946")).1
    "+255684868946" 1 "+255684868946" (by decide)).2.2.2
theorem runAlone_finished (now : Nat) (req : PlaceRequest) (n : Nat) (s : Store)
    (r : Response) : runAlone now req n (s, .finished r) = (s, .finished r) := by
  induction n with
  | zero => rfl
  | succ n ih => simpa [runAlone, stepProc] using ih
theorem converges_finished (now : Nat) (req : PlaceRequest) (s : Store) (r : Response) :
    Converges now req s (.finished r) (s, .finished r) :=
  ⟨0, fun m _ => runAlone_finished now req m s r⟩
theorem converges_step (now : Nat) (req : PlaceRequest) (s : Store) (p : Proc)
    (final : Store × Proc)
    (h : Converges now req (stepProc now req s p).1 (stepProc now req s p).2 final) :
    Converges now req s p final := by
  obtain ⟨n, hn⟩ := h
  refine ⟨n + 1, ?_⟩
  intro m hm
  obtain ⟨k, rfl⟩ : ∃ k, m = k + 1 := ⟨m - 1, by omega⟩
  rw [runAlone]
  exact hn k (by omega)

theorem converges_pricing (now : Nat) (req : PlaceRequest) (s : Store) (item : Item)
    (rest : List Item) (total : ℚ) (final : Store × Proc)
    (herr : ∀ r, priceItems s (item :: rest) total = .error r →
      final = (s, .finished r))
    (hok : ∀ t, priceItems s (item :: rest) total = .ok t →
      Converges now req s (afterPricing req t) final) :
    Converges now req s (.pricing (item :: rest) total) final := by
  induction rest generalizing item total with
  | nil =>
    apply converges_step
    rw [priceItems] at herr hok
    simp only [stepProc]
    cases hid : item.product_id with
    | malformed =>
      simp only [hid] at herr
      rw [herr _ rfl]
      exact converges_finished now req s _
    | uuid id =>
      simp only [hid] at herr hok ⊢
      cases hsel : selectProduct s id with
      | nil =>
        simp only [hsel] at herr
        rw [herr _ rfl]
        exact converges_finished now req s _
      | cons product tl =>
        simp only [hsel] at herr hok
        by_cases hlt : product.stock < item.quantity
        · simp only [hlt, if_true] at herr ⊢
          rw [herr _ rfl]
          exact converges_finished now req s _
        · simp only [hlt, if_false] at hok ⊢
          exact hok _ (by rw [priceItems])
  | cons next todo ih =>
    apply converges_step
    rw [priceItems] at herr hok
    simp only [stepProc]
    cases hid : item.product_id with
    | malformed =>
      simp only [hid] at herr
      rw [herr _ rfl]
      exact converges_finished now req s _
    | uuid id =>
      simp only [hid] at herr hok ⊢
      cases hsel : selectProduct s id with
      | nil =>
        simp only [hsel] at herr
        rw [herr _ rfl]
        exact converges_finished now req s _
      | cons product tl =>
        simp only [hsel] at herr hok
        by_cases hlt : product.stock < item.quantity
        · simp only [hlt, if_true] at herr ⊢
          rw [herr _ rfl]
          exact converges_finished now req s _
        · simp only [hlt, if_false] at herr hok ⊢
          exact ih next _ herr hok

theorem selectProduct_cases (s : Store) (id : Nat) :
    selectProduct s id = [] ∨ ∃ product tl, selectProduct s id = product :: tl := by
  cases selectProduct s id with
  | nil => exact Or.inl rfl
  | cons product tl => exact Or.inr ⟨product, tl, rfl⟩

theorem converges_writing (now : Nat) (req : PlaceRequest) (order : Order) (item : Item)
    (rest : List Item) (w : Nat) (s : Store) :
    Converges now req s (.itemRead order (item :: rest))
      ((writeItems none order.id (item :: rest) w s).1,
        .finished (if (writeItems none order.id (item :: rest) w s).2 then .created order
          else .serverError)) := by
  induction rest generalizing item w s with
  | nil =>
    apply converges_step
    simp only [stepProc, writeItems]
    cases hid : item.product_id with
    | malformed => exact converges_finished now req s _
    | uuid id =>
      rcases selectProduct_cases s id with hsel | ⟨product, tl, hsel⟩
      · simp only [hsel]
        exact converges_finished now req s _
      · simp only [hsel]
        apply converges_step
        apply converges_step
        simp only [stepProc, afterLine, reduceCtorEq, if_false, if_true, hid, IdText.rowId]
        exact converges_finished now req _ _
  | cons next todo ih =>
    apply converges_step
    rw [writeItems]
    simp only [stepProc]
    cases hid : item.product_id with
    | malformed => exact converges_finished now req s _
    | uuid id =>
      rcases selectProduct_cases s id with hsel | ⟨product, tl, hsel⟩
      · simp only [hsel]
        exact converges_finished now req s _
      · simp only [hsel]
        apply converges_step
        apply converges_step
        simp only [stepProc, afterLine, reduceCtorEq, if_false, hid, IdText.rowId]
        exact ih next (w + 2) _

theorem converges_place (now : Nat) (req : PlaceRequest) (s : Store) :
    Converges now req s (startProc req)
      ((place now none s req).1, .finished (place now none s req).2) := by
  unfold startProc place
  match hit : req.items with
  | none => exact converges_finished now req s _
  | some [] => exact converges_finished now req s _
  | some (item :: rest) =>
    simp only
    apply converges_pricing
    · intro e he
      rw [he]
    · intro t ht
      rw [ht]
      simp only
      have hins : Converges now req s
          (.orderInsert (applyCoupon s now req.coupon_code t).1
            (applyCoupon s now req.coupon_code t).2)
          ((commitOrder now none s req (item :: rest) t).1,
            .finished (commitOrder now none s req (item :: rest) t).2) := by
        apply converges_step
        unfold commitOrder
        simp only [stepProc, hit, Option.getD_some, afterLine, reduceCtorEq, if_false]
        cases ha : req.shipping_address with
        | none => exact converges_finished now req s _
        | some a =>
          cases hp : req.phone with
          | none => exact converges_finished now req s _
          | some p =>
            simp only
            have hw := converges_writing now req
              (newOrder s now req a p (applyCoupon s now req.coupon_code t).1
                (applyCoupon s now req.coupon_code t).2) item rest 1
              (insertOrder s (newOrder s now req a p (applyCoupon s now req.coupon_code t).1
                (applyCoupon s now req.coupon_code t).2))
            generalize hres : writeItems none
              (newOrder s now req a p (applyCoupon s now req.coupon_code t).1
                (applyCoupon s now req.coupon_code t).2).id (item :: rest) 1
              (insertOrder s (newOrder s now req a p (applyCoupon s now req.coupon_code t).1
                (applyCoupon s now req.coupon_code t).2)) = res at hw ⊢
            rcases res with ⟨s2, b⟩
            cases b <;> simpa using hw
      unfold afterPricing
      by_cases hc : strTruthy req.coupon_code = true
      · rw [if_pos hc]
        apply converges_step
        simpa only [stepProc] using hins
      · rw [if_neg hc]
        have h0 : applyCoupon s now req.coupon_code t = (t, 0) :=
          applyCoupon_no_code s now req.coupon_code t (by simpa using hc)
        rw [h0] at hins
        exact hins
/-- C24 on the demo store: two requests each ask for the one unit of product 1 that
is in stock. When both stock reads of the first loop run before either stock update,
both handlers answer `201`, two orders are stored and the stock of product 1 ends at
`-1`; when the first request runs to its end before the second starts, the second is
refused. -/
theorem concurrent_last_unit_both_succeed :
    (runSchedule 5 (demoRequest [⟨1, 1⟩] none) { demoRequest [⟨1, 1⟩] none with userId := 8 }
      [true, false, true, true, true, true, false, false, false, false]
      (demoStore, startProc (demoRequest [⟨1, 1⟩] none),
        startProc { demoRequest [⟨1, 1⟩] none with userId := 8 })).2.1.isCreated = true ∧
    (runSchedule 5 (demoRequest [⟨1, 1⟩] none) { demoRequest [⟨1, 1⟩] none with userId := 8 }
      [true, false, true, true, true, true, false, false, false, false]
      (demoStore, startProc (demoRequest [⟨1, 1⟩] none),
        startProc { demoRequest [⟨1, 1⟩] none with userId := 8 })).2.2.isCreated = true ∧
    (runSchedule 5 (demoRequest [⟨1, 1⟩] none) { demoRequest [⟨1, 1⟩] none with userId := 8 }
      [true, false, true, true, true, true, false, false, false, false]
      (demoStore, startProc (demoRequest [⟨1, 1⟩] none),
        startProc { demoRequest [⟨1, 1⟩] none with userId := 8 })).1.products.map
        (fun p => (p.id, p.stock)) = [(1, -1), (2, 4)] ∧
    (runSchedule 5 (demoRequest [⟨1, 1⟩] none) { demoRequest [⟨1, 1⟩] none with userId := 8 }
      [true, false, true, true, true, true, false, false, false, false]
      (demoStore, startProc (demoRequest [⟨1, 1⟩] none),
        startProc { demoRequest [⟨1, 1⟩] none with userId := 8 })).1.orders.map
        (fun o => o.user_id) = [7, 8] ∧
    (runSchedule 5 (demoRequest [⟨1, 1⟩] none) { demoRequest [⟨1, 1⟩] none with userId := 8 }
      [true, true, true, true, true, false, false, false, false, false]
      (demoStore, startProc (demoRequest [⟨1, 1⟩] none),
        startProc { demoRequest [⟨1, 1⟩] none with userId := 8 })).2.2.isCreated = false ∧
    (runSchedule 5 (demoRequest [⟨1, 1⟩] none) { demoRequest [⟨1, 1⟩] none with userId := 8 }
      [true, true, true, true, true, false, false, false, false, false]
      (demoStore, startProc (demoRequest [⟨1, 1⟩] none),
        startProc { demoRequest [⟨1, 1⟩] none with userId := 8 })).1.products.map
        (fun p => (p.id, p.stock)) = [(1, 0), (2, 4)] := by
  decide

end Shop
